import Mathlib

/-!
  Shallow embedding of the buslab request-lifecycle core.

  The source of truth is the JavaScript under src/: the student-side
  assignment coordinator (src/handlers/student.js), the requester
  conversation flow (src/handlers/language.js, concatenated user handlers),
  the chat-eligibility helpers (src/handlers/common.js) and the ban-check
  middleware (src/middleware/banCheck.js).

  Modelling conventions:
  * The Mongo document store is a pair of lists (requests, users); a
    mongoose `save` on a loaded document is a map-replace keyed on `id`
    (`putReq` / `putUser`), and `findById` / `findOne` are `List.find?`.
  * A single `Nat` id stands for both the Mongo `_id` and the Telegram id
    of a user (they are in bijection; the source keys sessions by
    `telegramId` and request back-references by `_id`).
  * The in-memory `Map`s `userStates` / `studentStates` are association
    lists; `Map.set` is modelled as erase-then-cons, which has the same
    lookup semantics.
  * `ctx` data used by a handler (chat id, callback payload, message text)
    is passed as explicit arguments; replies and outbound notifications
    are reflected in each handler's result tag where a claim needs them.
  * A `save` that can fail (StoreFailure) is modelled by boolean failure
    flags on `handleTakeRequest`: a failing save applies nothing and jumps
    to the catch block, keeping every previously persisted write.
-/

/-- Request lifecycle statuses, the closed enum used throughout
src/handlers (the mongoose Request schema itself is not under src/; the
set of values is exactly the set occurring in the handlers). -/
inductive Status where
  | pending
  | approved
  | assigned
  | answered
  | declined
  | closed
deriving DecidableEq, Repr

/-- User roles, from the mongoose enum in src/models/user.js:
`user` (requester), `student` (fulfiller), `admin` (reviewer). -/
inductive Role where
  | user
  | student
  | admin
deriving DecidableEq, Repr

/-- A Request document: fields as read and written by the handlers under
src/ (`studentId` is the spec's `fulfillerID`, `adminComment` the spec's
`reviewerComment`). -/
structure Request where
  id : Nat
  userId : Nat
  categoryId : Nat
  text : String
  status : Status
  studentId : Option Nat := none
  answerText : Option String := none
  adminComment : Option String := none
deriving DecidableEq, Repr

/-- A User document, from src/models/user.js (fields the claims touch). -/
structure User where
  id : Nat
  role : Role := .user
  isBanned : Bool := false
  offerAccepted : Bool := false
  currentAssignmentId : Option Nat := none
deriving DecidableEq, Repr

/-- Student (fulfiller) conversation states, the string tags stored in
`studentStates` by src/handlers/student.js. -/
inductive SState where
  | writing_answer
  | confirming_answer
deriving DecidableEq, Repr

/-- One `studentStates` entry: state tag, the request being worked, and
the pending draft answer (present only in `confirming_answer`). -/
structure SSession where
  state : SState
  requestId : Nat
  answerText : Option String := none
deriving DecidableEq, Repr

/-- Requester conversation states, the string tags stored in `userStates`
by the user handlers. -/
inductive UState where
  | selecting_category
  | entering_request
  | confirming_request
  | selecting_faq_category
  | selecting_faq
deriving DecidableEq, Repr

/-- One `userStates` entry: state tag plus the accumulated optional
fields (`categoryId`, `requestText`) the handlers spread along. -/
structure USession where
  state : UState
  categoryId : Option Nat := none
  requestText : Option String := none
deriving DecidableEq, Repr

/-- The whole mutable world the claims range over: the two persistent
collections and the two in-memory session maps. -/
structure St where
  requests : List Request
  users : List User
  userStates : List (Nat × USession)
  studentStates : List (Nat × SSession)
deriving DecidableEq, Repr

/-- `Request.findById`. -/
def findReq (s : St) (rid : Nat) : Option Request :=
  s.requests.find? (fun r => r.id == rid)

/-- `request.save()` on a loaded document: replace by id. -/
def putReq (s : St) (r : Request) : St :=
  { s with requests := s.requests.map (fun x => if x.id == r.id then r else x) }

/-- `User.findOne({telegramId})`. -/
def findUser (s : St) (uid : Nat) : Option User :=
  s.users.find? (fun u => u.id == uid)

/-- `user.save()` on a loaded document: replace by id. -/
def putUser (s : St) (u : User) : St :=
  { s with users := s.users.map (fun x => if x.id == u.id then u else x) }

/-- `getOrCreateUser` from src/handlers/common.js: return the stored user
or register a fresh one with the schema defaults (role `user`, no
assignment). -/
def getOrCreateUser (s : St) (uid : Nat) : User × St :=
  match findUser s uid with
  | some u => (u, s)
  | none =>
      let u : User := { id := uid }
      (u, { s with users := s.users ++ [u] })

/-- `studentStates.get(telegramId)`. -/
def getSSession (s : St) (uid : Nat) : Option SSession :=
  (s.studentStates.find? (fun p => p.1 == uid)).map Prod.snd

/-- `studentStates.set(telegramId, v)`. -/
def setSSession (s : St) (uid : Nat) (v : SSession) : St :=
  { s with studentStates := (uid, v) :: s.studentStates.filter (fun p => p.1 != uid) }

/-- `studentStates.delete(telegramId)`. -/
def delSSession (s : St) (uid : Nat) : St :=
  { s with studentStates := s.studentStates.filter (fun p => p.1 != uid) }

/-- `userStates.get(telegramId)`. -/
def getUSession (s : St) (uid : Nat) : Option USession :=
  (s.userStates.find? (fun p => p.1 == uid)).map Prod.snd

/-- `userStates.set(telegramId, v)`. -/
def setUSession (s : St) (uid : Nat) (v : USession) : St :=
  { s with userStates := (uid, v) :: s.userStates.filter (fun p => p.1 != uid) }

/-- `userStates.delete(telegramId)`. -/
def delUSession (s : St) (uid : Nat) : St :=
  { s with userStates := s.userStates.filter (fun p => p.1 != uid) }

/-- `isInStudentChat` from src/handlers/common.js:
`ctx.chat && ctx.chat.id.toString() === process.env.STUDENT_CHAT_ID`. -/
def isInStudentChat (chatId : Option Nat) (studentChatId : Nat) : Bool :=
  match chatId with
  | some c => c == studentChatId
  | none => false

/-- `canTakeRequests` from src/handlers/common.js. -/
def canTakeRequests (chatId : Option Nat) (studentChatId : Nat) : Bool :=
  isInStudentChat chatId studentChatId

/-- Result tags of `handleTakeRequest`, one per exit path of the source
handler (the `answerCbQuery` text sent on each path). -/
inductive TakeResult where
  | notInStudentChat
  | notFound
  | alreadyHandled
  | assignmentConflict
  | storeFailure
  | ok
deriving DecidableEq, Repr

/-- `handleTakeRequest` from src/handlers/student.js (lines 14-122).
Path order is the source's: student-chat guard, load request, status
guard, `getOrCreateUser`, role auto-promotion (persisted immediately),
assignment-conflict guard, `request.save()`, `user.save()`, session set.
`reqSaveFails` / `userSaveFails` inject a StoreFailure at the
corresponding `save`; the thrown error lands in the catch block, which
only replies, so earlier persisted writes remain. -/
def handleTakeRequest (s : St) (chatId : Option Nat) (studentChatId : Nat)
    (rid uid : Nat) (reqSaveFails userSaveFails : Bool) : TakeResult × St :=
  if !canTakeRequests chatId studentChatId then (.notInStudentChat, s)
  else
    match findReq s rid with
    | none => (.notFound, s)
    | some req =>
      if req.status != .approved then (.alreadyHandled, s)
      else
        let us := getOrCreateUser s uid
        let u0 := us.1
        let u := if u0.role == .user then { u0 with role := .student } else u0
        let s2 := if u0.role == .user then putUser us.2 u else us.2
        if u.currentAssignmentId.isSome then (.assignmentConflict, s2)
        else if reqSaveFails then (.storeFailure, s2)
        else
          let s3 := putReq s2 { req with status := .assigned, studentId := some u.id }
          if userSaveFails then (.storeFailure, s3)
          else
            let s4 := putUser s3 { u with currentAssignmentId := some rid }
            let s5 := setSSession s4 uid { state := .writing_answer, requestId := rid }
            (.ok, s5)

/-- Result tags of `handleRejectAssignment`; `ok` carries the id of the
request re-broadcast to the student chat with a fresh take button. -/
inductive RejectResult where
  | noActiveAssignment
  | notFound
  | ok (broadcastRid : Nat)
deriving DecidableEq, Repr

/-- `handleRejectAssignment` from src/handlers/student.js (lines 507-597).
`cbRid` is the callback payload (`reject_assignment:<id>`); on the text
button path it is `none` and the id defaults to the actor's
`currentAssignmentId`. The source never compares the callback id with the
current assignment. -/
def handleRejectAssignment (s : St) (uid : Nat) (cbRid : Option Nat) : RejectResult × St :=
  let us := getOrCreateUser s uid
  let u := us.1
  let s1 := us.2
  match u.currentAssignmentId with
  | none => (.noActiveAssignment, s1)
  | some cur =>
    let rid := cbRid.getD cur
    match findReq s1 rid with
    | none => (.notFound, s1)
    | some req =>
      let s2 := putReq s1 { req with status := .approved, studentId := none }
      let s3 := putUser s2 { u with currentAssignmentId := none }
      let s4 := delSSession s3 uid
      (.ok rid, s4)

/-- Result tags of `handleConfirmAnswer`. -/
inductive ConfirmResult where
  | noActiveAssignment
  | noDraft
  | notFound
  | ok
deriving DecidableEq, Repr

/-- `handleConfirmAnswer` from src/handlers/student.js (lines 354-418):
guard on `currentAssignmentId`, guard on the `confirming_answer` session,
load the session's request, set `status := answered` and `answerText`,
send the answer to the admin chat, delete the session. The actor's
`currentAssignmentId` is left untouched. -/
def handleConfirmAnswer (s : St) (uid : Nat) : ConfirmResult × St :=
  let us := getOrCreateUser s uid
  let u := us.1
  let s1 := us.2
  if u.currentAssignmentId.isNone then (.noActiveAssignment, s1)
  else
    match getSSession s1 uid with
    | none => (.noDraft, s1)
    | some sess =>
      if sess.state != .confirming_answer then (.noDraft, s1)
      else
        match findReq s1 sess.requestId with
        | none => (.notFound, s1)
        | some req =>
          let s2 := putReq s1 { req with status := .answered, answerText := sess.answerText }
          let s3 := delSSession s2 uid
          (.ok, s3)

/-- Result tags of `handleStudentAnswer` (a non-matching message falls
through). -/
inductive AnswerResult where
  | ignored
  | ok
deriving DecidableEq, Repr

/-- `handleStudentAnswer` from src/handlers/student.js (lines 315-349):
with an active assignment and a `writing_answer` session, move to
`confirming_answer` carrying the draft text. -/
def handleStudentAnswer (s : St) (uid : Nat) (text : String) : AnswerResult × St :=
  let us := getOrCreateUser s uid
  let u := us.1
  let s1 := us.2
  if u.currentAssignmentId.isNone then (.ignored, s1)
  else
    match getSSession s1 uid with
    | none => (.ignored, s1)
    | some sess =>
      if sess.state != .writing_answer then (.ignored, s1)
      else
        (.ok, setSSession s1 uid
          { state := .confirming_answer, requestId := sess.requestId, answerText := some text })

/-- Result tags of `handleRequestText`. -/
inductive TextResult where
  | tooShort
  | ok
deriving DecidableEq, Repr

/-- `handleRequestText` from the user handlers (src/handlers/language.js
concatenation, lines 265-303): reject text shorter than 150 before
touching the session; otherwise spread the old session into
`confirming_request` with the new text (`{...userState, state,
requestText}` keeps `categoryId`). -/
def handleRequestText (s : St) (uid : Nat) (text : String) : TextResult × St :=
  let us := getOrCreateUser s uid
  let s1 := us.2
  if text.length < 150 then (.tooShort, s1)
  else
    let old := getUSession s1 uid
    let sess : USession :=
      { state := .confirming_request
        categoryId := old.bind (fun x => x.categoryId)
        requestText := some text }
    (.ok, setUSession s1 uid sess)

/-- Result tags of `handleEditRequest`. -/
inductive EditResult where
  | invalidState
  | ok
deriving DecidableEq, Repr

/-- `handleEditRequest` from the user handlers (lines 372-400): requires
a session with a `categoryId`; resets to `entering_request` keeping the
category and dropping the draft text. -/
def handleEditRequest (s : St) (uid : Nat) : EditResult × St :=
  let us := getOrCreateUser s uid
  let s1 := us.2
  match getUSession s1 uid with
  | none => (.invalidState, s1)
  | some sess =>
    match sess.categoryId with
    | none => (.invalidState, s1)
    | some cat =>
      (.ok, setUSession s1 uid { state := .entering_request, categoryId := some cat })

/-- One edit cycle of the requester confirm screen: the edit button
followed by entering a new text. -/
def editCycle (s : St) (uid : Nat) (text : String) : St :=
  (handleRequestText (handleEditRequest s uid).2 uid text).2

/-- `n` edit cycles, one per entry of `ts`. -/
def editCycles (s : St) (uid : Nat) (ts : List String) : St :=
  ts.foldl (fun st t => editCycle st uid t) s

/-- Telegram chat types as compared by the middleware
(`ctx.chat.type !== 'private'`). -/
inductive ChatType where
  | privateChat
  | group
  | supergroup
  | channel
deriving DecidableEq, Repr

/-- Outcome of the ban middleware: pass the event on, or stop it. -/
inductive BanOutcome where
  | next
  | blocked
deriving DecidableEq, Repr

/-- A status counting a request as an active assignment of its fulfiller:
the source leaves `studentId` and `currentAssignmentId` in place both
while the request is `assigned` and after the answer is submitted
(`answered`). -/
def IsActive (st : Status) : Prop :=
  st = Status.assigned ∨ st = Status.answered

instance (st : Status) : Decidable (IsActive st) := by
  unfold IsActive; infer_instance

/-- Request ids are pairwise distinct (Mongo primary keys). -/
def UniqueReqIds (s : St) : Prop :=
  s.requests.Pairwise (fun a b => a.id ≠ b.id)

/-- User ids are pairwise distinct (Mongo primary keys / unique index). -/
def UniqueUserIds (s : St) : Prop :=
  s.users.Pairwise (fun a b => a.id ≠ b.id)

/-- Each non-null `currentAssignmentId` points at a stored request that
the user actively fulfils. -/
def BackRefOK (s : St) : Prop :=
  ∀ u ∈ s.users, u.currentAssignmentId = none ∨
    ∃ r ∈ s.requests, u.currentAssignmentId = some r.id ∧
      r.studentId = some u.id ∧ IsActive r.status

/-- Each active request is owned: its `studentId` names a stored user
whose `currentAssignmentId` points back at it. -/
def ActiveOwnedOK (s : St) : Prop :=
  ∀ r ∈ s.requests, IsActive r.status →
    ∃ u ∈ s.users, r.studentId = some u.id ∧ u.currentAssignmentId = some r.id

/-- Every student session belongs to a stored user whose current
assignment is the session's request. -/
def SessionOK (s : St) : Prop :=
  ∀ p ∈ s.studentStates, ∃ u ∈ s.users, u.id = p.1 ∧
    u.currentAssignmentId = some p.2.requestId

/-- The amended assignment invariant of the core. -/
def CoreInv (s : St) : Prop :=
  UniqueReqIds s ∧ UniqueUserIds s ∧ BackRefOK s ∧ ActiveOwnedOK s ∧ SessionOK s

instance (s : St) : Decidable (CoreInv s) := by
  unfold CoreInv UniqueReqIds UniqueUserIds BackRefOK ActiveOwnedOK SessionOK
  infer_instance

/-- Number of requests actively assigned to user `uid`. -/
def activeCountOf (s : St) (uid : Nat) : Nat :=
  (s.requests.filter (fun r => r.studentId == some uid && decide (IsActive r.status))).length

/-- The directed status edges of spec section 3. -/
def specEdge (a b : Status) : Bool :=
  match a, b with
  | .pending, .approved => true
  | .pending, .declined => true
  | .approved, .assigned => true
  | .assigned, .answered => true
  | .assigned, .approved => true
  | .answered, .closed => true
  | .answered, .assigned => true
  | _, _ => false

/-- The spec edges extended with the edge the code actually performs when
a fulfiller rejects an already-answered assignment. -/
def extEdge (a b : Status) : Bool :=
  specEdge a b || (a == Status.answered && b == Status.approved)

/-- Arguments of one `handleTakeRequest` invocation on a fixed request. -/
structure TakeArgs where
  chatId : Option Nat
  studentChatId : Nat
  uid : Nat
  reqSaveFails : Bool
  userSaveFails : Bool
deriving DecidableEq, Repr

/-- Run a sequence of take attempts, all on request `rid`. -/
def runTakes (s : St) (rid : Nat) (calls : List TakeArgs) : St :=
  calls.foldl
    (fun st a =>
      (handleTakeRequest st a.chatId a.studentChatId rid a.uid a.reqSaveFails a.userSaveFails).2)
    s

/-- `banCheckMiddleware` from src/middleware/banCheck.js: skip (continue)
when the chat exists and is not private, when there is no `ctx.from`,
when the user lookup throws (caught: fail open), or when the user is
absent or not banned; block only a stored banned user. Note the first
guard does not fire when `ctx.chat` is absent. -/
def banCheckMiddleware (s : St) (chat : Option ChatType) (fromId : Option Nat)
    (lookupThrows : Bool) : BanOutcome :=
  if (match chat with | some c => c != ChatType.privateChat | none => false) then .next
  else
    match fromId with
    | none => .next
    | some uid =>
      if lookupThrows then .next
      else
        match findUser s uid with
        | none => .next
        | some u => if u.isBanned then .blocked else .next

/-- Number of requests of user `uid` with status exactly `assigned` — the
count used by the claim's original (unamended) invariant. -/
def assignedCountOf (s : St) (uid : Nat) : Nat :=
  (s.requests.filter (fun r => r.studentId == some uid && r.status == Status.assigned)).length

/-- The claimed invariant as stated: `currentAssignmentID` non-null iff
exactly one request is `assigned` to the actor. -/
def InvAssigned (s : St) : Prop :=
  ∀ u ∈ s.users, (u.currentAssignmentId ≠ none ↔ assignedCountOf s u.id = 1)

instance (s : St) : Decidable (InvAssigned s) := by
  unfold InvAssigned
  infer_instance

/-- A reachable-shape state: user 7 fulfils request 1 (`assigned`) and is
about to confirm the drafted answer. -/
def c1ex : St :=
  { requests := [{ id := 1, userId := 5, categoryId := 3, text := "q",
                   status := .assigned, studentId := some 7 }]
    users := [{ id := 7, role := .student, currentAssignmentId := some 1 }]
    userStates := []
    studentStates := [(7, { state := .confirming_answer, requestId := 1,
                            answerText := some "a" })] }

/-- A small invariant-satisfying state: one approved request, one free
user. -/
def c1wex : St :=
  { requests := [{ id := 1, userId := 5, categoryId := 3, text := "q", status := .approved }]
    users := [{ id := 7 }]
    userStates := []
    studentStates := [] }

/-- State for the C2 witness: an approved request, a pending request, a
free user 7 and a busy user 8. -/
def c2ex : St :=
  { requests := [{ id := 1, userId := 5, categoryId := 3, text := "q", status := .approved },
                 { id := 2, userId := 5, categoryId := 3, text := "w", status := .pending }]
    users := [{ id := 7 }, { id := 8, role := .student, currentAssignmentId := some 1 }]
    userStates := []
    studentStates := [] }

/-- State for C3: one approved request and a free user. -/
def c3ex : St :=
  { requests := [{ id := 1, userId := 5, categoryId := 3, text := "q", status := .approved }]
    users := [{ id := 7 }]
    userStates := []
    studentStates := [] }

/-- State for C4: user 7 holds request 1; another fulfiller 8 holds
request 2. -/
def c4ex : St :=
  { requests := [{ id := 1, userId := 5, categoryId := 3, text := "q",
                   status := .assigned, studentId := some 7 },
                 { id := 2, userId := 6, categoryId := 3, text := "w",
                   status := .assigned, studentId := some 8 }]
    users := [{ id := 7, role := .student, currentAssignmentId := some 1 },
              { id := 8, role := .student, currentAssignmentId := some 2 }]
    userStates := []
    studentStates := [(7, { state := .writing_answer, requestId := 1 })]}

/-- State for C5: a plain `user`-role actor that already carries an
assignment reference, plus an approved request. -/
def c5ex : St :=
  { requests := [{ id := 2, userId := 5, categoryId := 3, text := "q", status := .approved },
                 { id := 5, userId := 5, categoryId := 3, text := "x", status := .pending }]
    users := [{ id := 1, role := .user, currentAssignmentId := some 99 }]
    userStates := []
    studentStates := [] }

/-- C6 trace, step 0: an approved request in the pool, a free user. -/
def c6s0 : St :=
  { requests := [{ id := 1, userId := 5, categoryId := 3, text := "q", status := .approved }]
    users := [{ id := 7 }]
    userStates := []
    studentStates := [] }

/-- C6 trace, step 1: user 7 takes request 1 from the student chat. -/
def c6s1 : St := (handleTakeRequest c6s0 (some 100) 100 1 7 false false).2

/-- C6 trace, step 2: user 7 drafts an answer. -/
def c6s2 : St := (handleStudentAnswer c6s1 7 "answer").2

/-- C6 trace, step 3: user 7 confirms the answer (request now
`answered`). -/
def c6s3 : St := (handleConfirmAnswer c6s2 7).2

/-- State for C7: a requester mid-flow in `entering_request` with a
chosen category. -/
def c7ex : St :=
  { requests := []
    users := [{ id := 9 }]
    userStates := [(9, { state := .entering_request, categoryId := some 4 })]
    studentStates := [] }

/-- State for C8: a requester on the confirm screen. -/
def c8ex : St :=
  { requests := []
    users := [{ id := 9 }]
    userStates := [(9, { state := .confirming_request, categoryId := some 4,
                         requestText := some "draft" })]
    studentStates := [] }

/-- A 150-character text, at the configured minimum length. -/
def longText : String := String.mk (List.replicate 150 'a')

/-- State for C9: an approved request and a plain requester-role user. -/
def c9ex : St :=
  { requests := [{ id := 1, userId := 5, categoryId := 3, text := "q", status := .approved }]
    users := [{ id := 7, role := .user }]
    userStates := []
    studentStates := [] }

/-- State for C10: a stored banned user. -/
def c10ex : St :=
  { requests := []
    users := [{ id := 5, isBanned := true }]
    userStates := []
    studentStates := [] }

/-! ## Store helper lemmas -/

theorem find?_map_update_ne {α : Type} (key : α → Nat) (l : List α) (r : α) (rid : Nat)
    (h : rid ≠ key r) :
    (l.map (fun x => if key x == key r then r else x)).find? (fun x => key x == rid) =
      l.find? (fun x => key x == rid) := by
  induction l with
  | nil => rfl
  | cons a t ih =>
    by_cases ha : key a = key r
    · have h1 : (if key a == key r then r else a) = r := by simp [ha]
      have h2 : (key r == rid) = false := by simp [Ne.symm h]
      have h3 : (key a == rid) = false := by simp [ha]; exact Ne.symm h
      simp only [List.map_cons, h1]
      rw [List.find?_cons_of_neg, List.find?_cons_of_neg]
      · exact ih
      · simp [h3]
      · simp [h2]
    · have h1 : (if key a == key r then r else a) = a := by simp [ha]
      simp only [List.map_cons, h1]
      by_cases hb : key a = rid
      · rw [List.find?_cons_of_pos, List.find?_cons_of_pos] <;> simp [hb]
      · rw [List.find?_cons_of_neg, List.find?_cons_of_neg]
        · exact ih
        · simp [hb]
        · simp [hb]

theorem find?_map_update_self {α : Type} (key : α → Nat) (l : List α) (r : α) :
    (l.map (fun x => if key x == key r then r else x)).find? (fun x => key x == key r) =
      (l.find? (fun x => key x == key r)).map (fun _ => r) := by
  induction l with
  | nil => rfl
  | cons a t ih =>
    by_cases ha : key a = key r
    · have h1 : (if key a == key r then r else a) = r := by simp [ha]
      simp only [List.map_cons, h1]
      rw [List.find?_cons_of_pos, List.find?_cons_of_pos] <;> simp [ha]
    · have h1 : (if key a == key r then r else a) = a := by simp [ha]
      simp only [List.map_cons, h1]
      rw [List.find?_cons_of_neg, List.find?_cons_of_neg]
      · exact ih
      · simp [ha]
      · simp [ha]

theorem findReq_putReq_ne (s : St) (r : Request) (rid : Nat) (h : rid ≠ r.id) :
    findReq (putReq s r) rid = findReq s rid := by
  have := find?_map_update_ne (fun x : Request => x.id) s.requests r rid h
  simpa [findReq, putReq] using this

theorem findReq_putReq_self (s : St) (r : Request) :
    findReq (putReq s r) r.id = (findReq s r.id).map (fun _ => r) := by
  have := find?_map_update_self (fun x : Request => x.id) s.requests r
  simpa [findReq, putReq] using this

theorem findUser_putUser_ne (s : St) (u : User) (uid : Nat) (h : uid ≠ u.id) :
    findUser (putUser s u) uid = findUser s uid := by
  have := find?_map_update_ne (fun x : User => x.id) s.users u uid h
  simpa [findUser, putUser] using this

theorem findUser_putUser_self (s : St) (u : User) :
    findUser (putUser s u) u.id = (findUser s u.id).map (fun _ => u) := by
  have := find?_map_update_self (fun x : User => x.id) s.users u
  simpa [findUser, putUser] using this

theorem findReq_putUser (s : St) (u : User) (rid : Nat) :
    findReq (putUser s u) rid = findReq s rid := rfl

theorem findUser_putReq (s : St) (r : Request) (uid : Nat) :
    findUser (putReq s r) uid = findUser s uid := rfl

theorem getUSession_eq_of_userStates (s t : St) (h : s.userStates = t.userStates) (uid : Nat) :
    getUSession s uid = getUSession t uid := by
  unfold getUSession; rw [h]

theorem getSSession_eq_of_studentStates (s t : St) (h : s.studentStates = t.studentStates)
    (uid : Nat) : getSSession s uid = getSSession t uid := by
  unfold getSSession; rw [h]

theorem getUSession_set_self (s : St) (uid : Nat) (v : USession) :
    getUSession (setUSession s uid v) uid = some v := by
  simp [getUSession, setUSession]

theorem getSSession_set_self (s : St) (uid : Nat) (v : SSession) :
    getSSession (setSSession s uid v) uid = some v := by
  simp [getSSession, setSSession]

theorem getSSession_del_self (s : St) (uid : Nat) :
    getSSession (delSSession s uid) uid = none := by
  simp only [getSSession, delSSession, Option.map_eq_none']
  rw [List.find?_eq_none]
  intro p hp
  have := (List.mem_filter.mp hp).2
  simp only [bne_iff_ne, ne_eq, decide_eq_true_eq] at this ⊢
  simpa using this

theorem getOrCreateUser_requests (s : St) (uid : Nat) :
    (getOrCreateUser s uid).2.requests = s.requests := by
  unfold getOrCreateUser; cases findUser s uid <;> simp

theorem getOrCreateUser_userStates (s : St) (uid : Nat) :
    (getOrCreateUser s uid).2.userStates = s.userStates := by
  unfold getOrCreateUser; cases findUser s uid <;> simp

theorem getOrCreateUser_studentStates (s : St) (uid : Nat) :
    (getOrCreateUser s uid).2.studentStates = s.studentStates := by
  unfold getOrCreateUser; cases findUser s uid <;> simp

theorem getOrCreateUser_found (s : St) (uid : Nat) (u : User) (h : findUser s uid = some u) :
    getOrCreateUser s uid = (u, s) := by
  unfold getOrCreateUser; rw [h]

/-! ## C10: ban middleware -/

/-- C10 counterexample: the claim says the ban check blocks only
private-chat interactions, but an event with no chat at all (e.g. an
inline query) from a stored banned user is blocked too: here the chat is
`none`, not a private chat, and the middleware still blocks. -/
theorem ban_check_counterexample :
    banCheckMiddleware c10ex none (some 5) false = BanOutcome.blocked ∧
      (none : Option ChatType) ≠ some ChatType.privateChat := by
  constructor
  · rfl
  · simp

/-- C10 amended: the ban middleware blocks exactly the events that are
not in a non-private chat (private chats and chat-less events) coming
from a stored user whose banned flag is set, with a successful lookup;
every event in a non-private chat, every event from an unknown or absent
user, and every event whose lookup throws continues to the next handler
(the check fails open). -/
theorem ban_check_amended (s : St) (chat : Option ChatType) (fromId : Option Nat) (thr : Bool) :
    banCheckMiddleware s chat fromId thr = BanOutcome.blocked ↔
      ((chat = none ∨ chat = some ChatType.privateChat) ∧ thr = false ∧
        ∃ uid, fromId = some uid ∧ ∃ u, findUser s uid = some u ∧ u.isBanned = true) := by
  unfold banCheckMiddleware
  cases chat with
  | none =>
    cases fromId with
    | none => simp
    | some uid =>
      cases thr with
      | false =>
        cases h : findUser s uid with
        | none => simp [h]
        | some u => cases hb : u.isBanned <;> simp [h, hb]
      | true => simp
  | some c =>
    by_cases hc : c = ChatType.privateChat
    · subst hc
      cases fromId with
      | none => simp
      | some uid =>
        cases thr with
        | false =>
          cases h : findUser s uid with
          | none => simp [h]
          | some u => cases hb : u.isBanned <;> simp [h, hb]
        | true => simp
    · simp [hc]

/-! ## C7: minimum-length validation in entering_request -/

/-- C7: with the requester in `entering_request` (any chosen category),
an input shorter than the 150-character minimum yields a validation
failure and changes nothing: no request is created, the session map is
untouched, and the session stays `entering_request` with its category. -/
theorem request_text_too_short (s : St) (uid : Nat) (text : String) (cat : Nat)
    (rt : Option String)
    (hsess : getUSession s uid =
      some { state := .entering_request, categoryId := some cat, requestText := rt })
    (hlen : text.length < 150) :
    (handleRequestText s uid text).1 = TextResult.tooShort ∧
    (handleRequestText s uid text).2.requests = s.requests ∧
    (handleRequestText s uid text).2.userStates = s.userStates ∧
    getUSession (handleRequestText s uid text).2 uid =
      some { state := .entering_request, categoryId := some cat, requestText := rt } := by
  have h1 : handleRequestText s uid text = (.tooShort, (getOrCreateUser s uid).2) := by
    unfold handleRequestText
    simp [hlen]
  rw [h1]
  refine ⟨rfl, getOrCreateUser_requests s uid, getOrCreateUser_userStates s uid, ?_⟩
  rw [getUSession_eq_of_userStates _ s (getOrCreateUser_userStates s uid) uid]
  exact hsess

/-- C7 witness: a concrete 2-character message in `entering_request`. -/
theorem request_text_too_short_witness :
    (handleRequestText c7ex 9 "ab").1 = TextResult.tooShort ∧
    (handleRequestText c7ex 9 "ab").2.requests = c7ex.requests ∧
    (handleRequestText c7ex 9 "ab").2.userStates = c7ex.userStates ∧
    getUSession (handleRequestText c7ex 9 "ab").2 9 =
      some { state := .entering_request, categoryId := some 4, requestText := none } :=
  request_text_too_short c7ex 9 "ab" 4 none (by decide) (by decide)

/-! ## The success path of handleTakeRequest -/

/-- Full shape of a successful take: the loaded request is approved, the
actor has no assignment and both saves succeed; the request becomes
`assigned` to the actor, the (possibly auto-promoted) actor records the
assignment, and the writing_answer session is installed. -/
theorem take_success_shape (s : St) (env rid uid : Nat) (req : Request) (u : User)
    (hreq : findReq s rid = some req) (hst : req.status = Status.approved)
    (hu : findUser s uid = some u) (hfree : u.currentAssignmentId = none) :
    handleTakeRequest s (some env) env rid uid false false =
      (TakeResult.ok,
        setSSession
          (putUser
            (putReq (if u.role == Role.user then putUser s { u with role := .student } else s)
              { req with status := .assigned, studentId := some u.id })
            { (if u.role == Role.user then { u with role := Role.student } else u) with
                currentAssignmentId := some rid })
          uid { state := .writing_answer, requestId := rid }) := by
  by_cases hr : u.role = Role.user
  · unfold handleTakeRequest
    simp [canTakeRequests, isInStudentChat, hreq, hst, getOrCreateUser_found s uid u hu,
      hfree, hr]
  · unfold handleTakeRequest
    simp [canTakeRequests, isInStudentChat, hreq, hst, getOrCreateUser_found s uid u hu,
      hfree, hr]

/-! ## Lookup facts -/

theorem findReq_id (s : St) (rid : Nat) (req : Request) (h : findReq s rid = some req) :
    req.id = rid := by
  unfold findReq at h
  have := List.find?_some h
  simpa using this

theorem findReq_mem (s : St) (rid : Nat) (req : Request) (h : findReq s rid = some req) :
    req ∈ s.requests := by
  unfold findReq at h
  exact List.mem_of_find?_eq_some h

theorem findUser_id (s : St) (uid : Nat) (u : User) (h : findUser s uid = some u) :
    u.id = uid := by
  unfold findUser at h
  have := List.find?_some h
  simpa using this

theorem findUser_mem (s : St) (uid : Nat) (u : User) (h : findUser s uid = some u) :
    u ∈ s.users := by
  unfold findUser at h
  exact List.mem_of_find?_eq_some h

theorem uniqueReqIds_eq (s : St) (h : UniqueReqIds s) (a b : Request)
    (ha : a ∈ s.requests) (hb : b ∈ s.requests) (hid : a.id = b.id) : a = b := by
  by_contra hne
  have hsymm : Symmetric (fun x y : Request => x.id ≠ y.id) := fun x y hxy => hxy.symm
  exact (h.forall hsymm ha hb hne) hid

theorem uniqueUserIds_eq (s : St) (h : UniqueUserIds s) (a b : User)
    (ha : a ∈ s.users) (hb : b ∈ s.users) (hid : a.id = b.id) : a = b := by
  by_contra hne
  have hsymm : Symmetric (fun x y : User => x.id ≠ y.id) := fun x y hxy => hxy.symm
  exact (h.forall hsymm ha hb hne) hid

theorem findReq_eq_of_mem (s : St) (h : UniqueReqIds s) (rid : Nat) (req r : Request)
    (hfind : findReq s rid = some req) (hmem : r ∈ s.requests) (hid : r.id = rid) :
    r = req :=
  uniqueReqIds_eq s h r req hmem (findReq_mem s rid req hfind)
    (by rw [hid, findReq_id s rid req hfind])

theorem findUser_eq_of_mem (s : St) (h : UniqueUserIds s) (uid : Nat) (u w : User)
    (hfind : findUser s uid = some u) (hmem : w ∈ s.users) (hid : w.id = uid) :
    w = u :=
  uniqueUserIds_eq s h w u hmem (findUser_mem s uid u hfind)
    (by rw [hid, findUser_id s uid u hfind])

theorem findUser_eq_none_forall (s : St) (uid : Nat) (h : findUser s uid = none) :
    ∀ w ∈ s.users, w.id ≠ uid := by
  intro w hw
  unfold findUser at h
  have := List.find?_eq_none.mp h w hw
  simpa using this

theorem findUser_append_fresh (s : St) (uid : Nat) (h : findUser s uid = none) :
    findUser { s with users := s.users ++ [{ id := uid }] } uid = some { id := uid } := by
  unfold findUser at h ⊢
  simp only [List.find?_append, h, Option.none_or]
  simp

theorem getSSession_mem (s : St) (uid : Nat) (sess : SSession)
    (h : getSSession s uid = some sess) : (uid, sess) ∈ s.studentStates := by
  unfold getSSession at h
  rcases Option.map_eq_some'.mp h with ⟨p, hp, hsnd⟩
  have h1 := List.find?_some hp
  have h2 : p.1 = uid := by simpa using h1
  have h3 : p = (uid, sess) := by
    cases p
    simp_all
  rw [← h3]
  exact List.mem_of_find?_eq_some hp

theorem uniqueReqIds_put (s : St) (r : Request) (h : UniqueReqIds s) :
    UniqueReqIds (putReq s r) := by
  unfold UniqueReqIds at h ⊢
  simp only [putReq, List.pairwise_map]
  refine h.imp_of_mem ?_
  intro a b _ _ hab
  have ha2 : (if a.id == r.id then r else a).id = a.id := by
    by_cases ha : a.id = r.id <;> simp [ha]
  have hb2 : (if b.id == r.id then r else b).id = b.id := by
    by_cases hb : b.id = r.id <;> simp [hb]
  simp only [ha2, hb2]
  exact hab

theorem uniqueUserIds_put (s : St) (u : User) (h : UniqueUserIds s) :
    UniqueUserIds (putUser s u) := by
  unfold UniqueUserIds at h ⊢
  simp only [putUser, List.pairwise_map]
  refine h.imp_of_mem ?_
  intro a b _ _ hab
  have ha2 : (if a.id == u.id then u else a).id = a.id := by
    by_cases ha : a.id = u.id <;> simp [ha]
  have hb2 : (if b.id == u.id then u else b).id = b.id := by
    by_cases hb : b.id = u.id <;> simp [hb]
  simp only [ha2, hb2]
  exact hab

/-! ## C8: the edit loop of the requester confirm screen -/

theorem editCycle_step (s : St) (uid cat : Nat) (t0 : Option String) (t : String)
    (hsess : getUSession s uid =
      some { state := .confirming_request, categoryId := some cat, requestText := t0 })
    (hlen : 150 ≤ t.length) :
    getUSession (editCycle s uid t) uid =
      some { state := .confirming_request, categoryId := some cat, requestText := some t } := by
  have hsess1 : getUSession (getOrCreateUser s uid).2 uid =
      some { state := .confirming_request, categoryId := some cat, requestText := t0 } := by
    rw [getUSession_eq_of_userStates _ s (getOrCreateUser_userStates s uid) uid]
    exact hsess
  have he : handleEditRequest s uid =
      (.ok, setUSession (getOrCreateUser s uid).2 uid
        { state := .entering_request, categoryId := some cat }) := by
    unfold handleEditRequest
    simp [hsess1]
  have hnot : ¬ t.length < 150 := by omega
  unfold editCycle
  rw [he]
  set sEdit := setUSession (getOrCreateUser s uid).2 uid
    { state := .entering_request, categoryId := some cat } with hsEdit
  have hsess2 : getUSession (getOrCreateUser sEdit uid).2 uid =
      some { state := .entering_request, categoryId := some cat, requestText := none } := by
    rw [getUSession_eq_of_userStates _ sEdit (getOrCreateUser_userStates sEdit uid) uid]
    exact getUSession_set_self _ uid _
  have ht : handleRequestText sEdit uid t =
      (.ok, setUSession (getOrCreateUser sEdit uid).2 uid
        { state := .confirming_request, categoryId := some cat, requestText := some t }) := by
    unfold handleRequestText
    simp [hnot, hsess2]
  rw [ht]
  exact getUSession_set_self _ uid _

/-- C8: from `confirming_request`, any number of (edit, valid text)
cycles lands back in `confirming_request`, with the session text equal to
the last text entered and the chosen category unchanged throughout. -/
theorem edit_loop_confirming (s : St) (uid cat : Nat) (t0 : String) (ts : List String)
    (hsess : getUSession s uid =
      some { state := .confirming_request, categoryId := some cat, requestText := some t0 })
    (hlen : ∀ t ∈ ts, 150 ≤ t.length) :
    getUSession (editCycles s uid ts) uid =
      some { state := .confirming_request, categoryId := some cat,
             requestText := some (ts.getLastD t0) } := by
  induction ts generalizing s t0 with
  | nil => simpa [editCycles] using hsess
  | cons t ts ih =>
    have hstep := editCycle_step s uid cat (some t0) t hsess (hlen t (by simp))
    have hun : editCycles s uid (t :: ts) = editCycles (editCycle s uid t) uid ts := by
      simp [editCycles]
    rw [hun, List.getLastD_cons]
    exact ih (editCycle s uid t) t hstep (fun x hx => hlen x (by simp [hx]))

/-- C8 witness: one edit cycle with a concrete 150-character text. -/
theorem edit_loop_confirming_witness :
    getUSession (editCycles c8ex 9 [longText]) 9 =
      some { state := .confirming_request, categoryId := some 4,
             requestText := some longText } := by
  have := edit_loop_confirming c8ex 9 4 "draft" [longText] (by decide)
    (by
      intro t ht
      simp only [List.mem_singleton] at ht
      subst ht
      have hl : longText.length = 150 := by
        simp [longText, String.length]
      omega)
  simpa using this

theorem findReq_setSSession (s : St) (uid : Nat) (v : SSession) (rid : Nat) :
    findReq (setSSession s uid v) rid = findReq s rid := rfl

theorem findReq_delSSession (s : St) (uid rid : Nat) :
    findReq (delSSession s uid) rid = findReq s rid := rfl

theorem findUser_setSSession (s : St) (uid : Nat) (v : SSession) (uid2 : Nat) :
    findUser (setSSession s uid v) uid2 = findUser s uid2 := rfl

theorem findUser_delSSession (s : St) (uid uid2 : Nat) :
    findUser (delSSession s uid) uid2 = findUser s uid2 := rfl

theorem findUser_putUser_self_of (s : St) (u v : User) (uid : Nat)
    (hu : findUser s uid = some u) (hvid : v.id = u.id) :
    findUser (putUser s v) uid = some v := by
  have hid := findUser_id s uid u hu
  have heq : uid = v.id := by rw [hvid, hid]
  subst heq
  rw [findUser_putUser_self, hu]
  rfl

theorem findReq_putReq_self_of (s : St) (req r : Request) (rid : Nat)
    (hreq : findReq s rid = some req) (hrid : r.id = req.id) :
    findReq (putReq s r) rid = some r := by
  have hid := findReq_id s rid req hreq
  have heq : rid = r.id := by rw [hrid, hid]
  subst heq
  rw [findReq_putReq_self, hreq]
  rfl

/-! ## C9: eligibility to take is decided by the originating chat -/

/-- C9: `handleTakeRequest` gates on the chat, never the role: invoked
from any chat other than the student group chat it returns with the
state untouched; invoked from inside that chat, an actor of any role
(plain requesters included) with no current assignment takes an approved
request successfully. -/
theorem take_eligibility_by_chat :
    (∀ (s : St) (chatId : Option Nat) (env rid uid : Nat) (f1 f2 : Bool),
      canTakeRequests chatId env = false →
      handleTakeRequest s chatId env rid uid f1 f2 = (TakeResult.notInStudentChat, s)) ∧
    (∀ (s : St) (env rid uid : Nat) (role : Role) (req : Request) (u : User),
      findReq s rid = some req → req.status = Status.approved →
      findUser s uid = some u → u.role = role → u.currentAssignmentId = none →
      (handleTakeRequest s (some env) env rid uid false false).1 = TakeResult.ok ∧
      findReq (handleTakeRequest s (some env) env rid uid false false).2 rid =
        some { req with status := .assigned, studentId := some u.id }) := by
  constructor
  · intro s chatId env rid uid f1 f2 hcan
    unfold handleTakeRequest
    simp [hcan]
  · intro s env rid uid role req u hreq hst hu _ hfree
    rw [take_success_shape s env rid uid req u hreq hst hu hfree]
    refine ⟨rfl, ?_⟩
    rw [findReq_setSSession, findReq_putUser]
    have hfind2 : findReq (if u.role == Role.user then putUser s { u with role := .student } else s)
        rid = some req := by
      by_cases hr : u.role = Role.user <;> simp [hr, findReq_putUser, hreq]
    exact findReq_putReq_self_of _ req _ rid hfind2 rfl

/-- C9 witness: a plain requester-role user takes from the student chat;
from a private chat the same take is refused with no state change. -/
theorem take_eligibility_by_chat_witness :
    handleTakeRequest c9ex none 100 1 7 false false = (TakeResult.notInStudentChat, c9ex) ∧
    (handleTakeRequest c9ex (some 100) 100 1 7 false false).1 = TakeResult.ok :=
  ⟨take_eligibility_by_chat.1 c9ex none 100 1 7 false false (by decide),
   (take_eligibility_by_chat.2 c9ex 100 1 7 Role.user
      { id := 1, userId := 5, categoryId := 3, text := "q", status := .approved }
      { id := 7, role := .user }
      (by decide) (by decide) (by decide) (by decide) (by decide)).1⟩

/-! ## Failure-path shapes of handleTakeRequest -/

theorem take_conflict_shape (s : St) (env rid uid : Nat) (f1 f2 : Bool) (req : Request)
    (u : User) (c : Nat)
    (hreq : findReq s rid = some req) (hst : req.status = Status.approved)
    (hu : findUser s uid = some u) (hbusy : u.currentAssignmentId = some c) :
    handleTakeRequest s (some env) env rid uid f1 f2 =
      (TakeResult.assignmentConflict,
        if u.role == Role.user then putUser s { u with role := .student } else s) := by
  by_cases hr : u.role = Role.user
  · unfold handleTakeRequest
    simp [canTakeRequests, isInStudentChat, hreq, hst, getOrCreateUser_found s uid u hu,
      hbusy, hr]
  · unfold handleTakeRequest
    simp [canTakeRequests, isInStudentChat, hreq, hst, getOrCreateUser_found s uid u hu,
      hbusy, hr]

theorem take_reqfail_shape (s : St) (env rid uid : Nat) (f2 : Bool) (req : Request) (u : User)
    (hreq : findReq s rid = some req) (hst : req.status = Status.approved)
    (hu : findUser s uid = some u) (hfree : u.currentAssignmentId = none) :
    handleTakeRequest s (some env) env rid uid true f2 =
      (TakeResult.storeFailure,
        if u.role == Role.user then putUser s { u with role := .student } else s) := by
  by_cases hr : u.role = Role.user
  · unfold handleTakeRequest
    simp [canTakeRequests, isInStudentChat, hreq, hst, getOrCreateUser_found s uid u hu,
      hfree, hr]
  · unfold handleTakeRequest
    simp [canTakeRequests, isInStudentChat, hreq, hst, getOrCreateUser_found s uid u hu,
      hfree, hr]

theorem take_userfail_shape (s : St) (env rid uid : Nat) (req : Request) (u : User)
    (hreq : findReq s rid = some req) (hst : req.status = Status.approved)
    (hu : findUser s uid = some u) (hfree : u.currentAssignmentId = none) :
    handleTakeRequest s (some env) env rid uid false true =
      (TakeResult.storeFailure,
        putReq (if u.role == Role.user then putUser s { u with role := .student } else s)
          { req with status := .assigned, studentId := some u.id }) := by
  by_cases hr : u.role = Role.user
  · unfold handleTakeRequest
    simp [canTakeRequests, isInStudentChat, hreq, hst, getOrCreateUser_found s uid u hu,
      hfree, hr]
  · unfold handleTakeRequest
    simp [canTakeRequests, isInStudentChat, hreq, hst, getOrCreateUser_found s uid u hu,
      hfree, hr]

theorem take_badstatus_shape (s : St) (chatId : Option Nat) (env rid uid : Nat) (f1 f2 : Bool)
    (req : Request) (hcan : canTakeRequests chatId env = true)
    (hreq : findReq s rid = some req) (hst : req.status ≠ Status.approved) :
    handleTakeRequest s chatId env rid uid f1 f2 = (TakeResult.alreadyHandled, s) := by
  unfold handleTakeRequest
  have hb : (req.status != Status.approved) = true := by simp [hst]
  simp [hcan, hreq, hb]

/-! ## C5: when role promotion happens -/

/-- C5 counterexample: a take that fails with AssignmentConflict still
promotes (and persists) the actor's role: the promotion sits after the
status check but before the conflict check in the source, not in step 3
after both precondition checks. -/
theorem role_promotion_counterexample :
    (handleTakeRequest c5ex (some 100) 100 2 1 false false).1 = TakeResult.assignmentConflict ∧
    (findUser c5ex 1).map User.role = some Role.user ∧
    (findUser (handleTakeRequest c5ex (some 100) 100 2 1 false false).2 1).map User.role =
      some Role.student := by
  decide

/-- C5 amended: a take failing the status guard (AlreadyHandled) leaves
the state — hence the role — unchanged, but every take that passes the
status guard promotes a requester-role actor to fulfiller immediately,
even when it then fails with AssignmentConflict or a store failure. -/
theorem role_promotion_amended :
    (∀ (s : St) (chatId : Option Nat) (env rid uid : Nat) (f1 f2 : Bool) (req : Request),
      canTakeRequests chatId env = true →
      findReq s rid = some req → req.status ≠ Status.approved →
      (handleTakeRequest s chatId env rid uid f1 f2).2 = s) ∧
    (∀ (s : St) (env rid uid : Nat) (f1 f2 : Bool) (req : Request) (u : User),
      findReq s rid = some req → req.status = Status.approved →
      findUser s uid = some u →
      (findUser (handleTakeRequest s (some env) env rid uid f1 f2).2 uid).map User.role =
        some (if u.role = Role.user then Role.student else u.role)) := by
  constructor
  · intro s chatId env rid uid f1 f2 req hcan hreq hst
    rw [take_badstatus_shape s chatId env rid uid f1 f2 req hcan hreq hst]
  · intro s env rid uid f1 f2 req u hreq hst hu
    have hfind2 : findUser (if u.role == Role.user then putUser s { u with role := .student }
        else s) uid = some (if u.role = Role.user then { u with role := Role.student } else u) := by
      by_cases hr : u.role = Role.user
      · simp only [hr, if_pos, beq_self_eq_true]
        exact findUser_putUser_self_of s u _ uid hu rfl
      · simp [hr, hu]
    have hrole : (if u.role = Role.user then { u with role := Role.student } else u).role =
        (if u.role = Role.user then Role.student else u.role) := by
      by_cases hr : u.role = Role.user <;> simp [hr]
    cases hass : u.currentAssignmentId with
    | some c =>
      rw [take_conflict_shape s env rid uid f1 f2 req u c hreq hst hu hass, hfind2]
      simp [hrole]
    | none =>
      cases f1 with
      | true =>
        rw [take_reqfail_shape s env rid uid f2 req u hreq hst hu hass, hfind2]
        simp [hrole]
      | false =>
        cases f2 with
        | true =>
          rw [take_userfail_shape s env rid uid req u hreq hst hu hass]
          rw [show findUser (putReq (if u.role == Role.user then
              putUser s { u with role := .student } else s)
              { req with status := .assigned, studentId := some u.id }) uid =
            findUser (if u.role == Role.user then
              putUser s { u with role := .student } else s) uid from rfl]
          rw [hfind2]
          simp [hrole]
        | false =>
          rw [take_success_shape s env rid uid req u hreq hst hu hass]
          rw [findUser_setSSession]
          have hfind3 : findUser (putReq (if u.role == Role.user then
              putUser s { u with role := .student } else s)
              { req with status := .assigned, studentId := some u.id }) uid =
              some (if u.role = Role.user then { u with role := Role.student } else u) := hfind2
          rw [findUser_putUser_self_of _ _ _ uid hfind3 (by
            by_cases hr : u.role = Role.user <;> simp [hr])]
          by_cases hr : u.role = Role.user <;> simp [hr]

/-- C5 witness: at a state where the guards pass, the amended theorem
applied to a requester-role actor yields the promoted role. -/
theorem role_promotion_amended_witness :
    (handleTakeRequest c5ex (some 100) 100 5 1 false false).2 = c5ex ∧
    (findUser (handleTakeRequest c5ex (some 100) 100 2 1 true false).2 1).map User.role =
      some Role.student := by
  constructor
  · exact role_promotion_amended.1 c5ex (some 100) 100 5 1 false false
      { id := 5, userId := 5, categoryId := 3, text := "x", status := .pending }
      (by decide) (by decide) (by decide)
  · have := role_promotion_amended.2 c5ex 100 2 1 true false
      { id := 2, userId := 5, categoryId := 3, text := "q", status := .approved }
      { id := 1, role := .user, currentAssignmentId := some 99 }
      (by decide) (by decide) (by decide)
    simpa using this

/-! ## C4: rejectAssignment -/

theorem reject_success_shape (s : St) (uid : Nat) (cb : Option Nat) (u : User) (cur : Nat)
    (req : Request)
    (hu : findUser s uid = some u) (hcur : u.currentAssignmentId = some cur)
    (hreq : findReq s (cb.getD cur) = some req) :
    handleRejectAssignment s uid cb =
      (RejectResult.ok (cb.getD cur),
        delSSession (putUser (putReq s { req with status := .approved, studentId := none })
          { u with currentAssignmentId := none }) uid) := by
  unfold handleRejectAssignment
  simp [getOrCreateUser_found s uid u hu, hcur, hreq]

/-- C4 counterexample: user 7 currently holds request 1, yet a reject
callback naming request 2 (someone else's assignment) succeeds and
mutates request 2 — the source never compares the callback id with
`currentAssignmentId`, contradicting "valid only if
Actor.currentAssignmentID == requestID ... performs no Request
mutation". -/
theorem reject_foreign_counterexample :
    (findUser c4ex 7).map User.currentAssignmentId = some (some 1) ∧
    (handleRejectAssignment c4ex 7 (some 2)).1 = RejectResult.ok 2 ∧
    (findReq c4ex 2).map Request.status = some Status.assigned ∧
    (findReq (handleRejectAssignment c4ex 7 (some 2)).2 2).map Request.status =
      some Status.approved := by
  decide

/-- C4 amended: `rejectAssignment` requires only a non-null
`currentAssignmentId` and an existing request under the id it resolves
(the callback payload, or the current assignment on the text path); it
then reverts THAT request to `approved` with its fulfiller cleared,
clears the actor's `currentAssignmentId` and session, and re-broadcasts
a fresh take offer for that request — with no check that the id equals
the actor's current assignment. When the actor holds no assignment, or
the resolved request does not exist, nothing is mutated. -/
theorem reject_assignment_amended :
    (∀ (s : St) (uid : Nat) (cb : Option Nat) (u : User),
      findUser s uid = some u → u.currentAssignmentId = none →
      handleRejectAssignment s uid cb = (RejectResult.noActiveAssignment, s)) ∧
    (∀ (s : St) (uid : Nat) (cb : Option Nat) (u : User) (cur : Nat),
      findUser s uid = some u → u.currentAssignmentId = some cur →
      findReq s (cb.getD cur) = none →
      handleRejectAssignment s uid cb = (RejectResult.notFound, s)) ∧
    (∀ (s : St) (uid : Nat) (cb : Option Nat) (u : User) (cur : Nat) (req : Request),
      findUser s uid = some u → u.currentAssignmentId = some cur →
      findReq s (cb.getD cur) = some req →
      (handleRejectAssignment s uid cb).1 = RejectResult.ok (cb.getD cur) ∧
      findReq (handleRejectAssignment s uid cb).2 (cb.getD cur) =
        some { req with status := .approved, studentId := none } ∧
      (findUser (handleRejectAssignment s uid cb).2 uid).map User.currentAssignmentId =
        some none ∧
      getSSession (handleRejectAssignment s uid cb).2 uid = none) := by
  refine ⟨?_, ?_, ?_⟩
  · intro s uid cb u hu hnone
    unfold handleRejectAssignment
    simp [getOrCreateUser_found s uid u hu, hnone]
  · intro s uid cb u cur hu hcur hmiss
    unfold handleRejectAssignment
    simp [getOrCreateUser_found s uid u hu, hcur, hmiss]
  · intro s uid cb u cur req hu hcur hreq
    rw [reject_success_shape s uid cb u cur req hu hcur hreq]
    refine ⟨rfl, ?_, ?_, ?_⟩
    · rw [findReq_delSSession, findReq_putUser]
      exact findReq_putReq_self_of s req _ (cb.getD cur) hreq rfl
    · rw [findUser_delSSession]
      rw [findUser_putUser_self_of
        (putReq s { req with status := .approved, studentId := none }) u
        { u with currentAssignmentId := none } uid
        (by rw [findUser_putReq]; exact hu) rfl]
      rfl
    · exact getSSession_del_self _ uid

/-- C4 witness: the text-button path, where the id is the actor's own
current assignment. -/
theorem reject_assignment_amended_witness :
    (handleRejectAssignment c4ex 7 none).1 = RejectResult.ok 1 ∧
    (findReq (handleRejectAssignment c4ex 7 none).2 1).map Request.status =
      some Status.approved ∧
    (findUser (handleRejectAssignment c4ex 7 none).2 7).map User.currentAssignmentId =
      some none ∧
    getSSession (handleRejectAssignment c4ex 7 none).2 7 = none := by
  have := reject_assignment_amended.2.2 c4ex 7 none
    { id := 7, role := .student, currentAssignmentId := some 1 } 1
    { id := 1, userId := 5, categoryId := 3, text := "q", status := .assigned,
      studentId := some 7 }
    (by decide) (by decide) (by decide)
  simp only [Option.getD_none] at this
  refine ⟨this.1, ?_, this.2.2.1, this.2.2.2⟩
  rw [this.2.1]
  rfl

/-! ## C3: the two step-3 writes are not one atomic unit -/

/-- C3 counterexample: when `request.save()` succeeds and `user.save()`
fails, the operation fails with a store failure but the request is left
mutated (`assigned`, fulfiller set) while the actor's assignment is not
recorded — contradicting "the whole operation must fail and leave
neither mutated". -/
theorem take_atomicity_counterexample :
    (handleTakeRequest c3ex (some 100) 100 1 7 false true).1 = TakeResult.storeFailure ∧
    (findReq (handleTakeRequest c3ex (some 100) 100 1 7 false true).2 1).map Request.status =
      some Status.assigned ∧
    (findUser (handleTakeRequest c3ex (some 100) 100 1 7 false true).2 7).map
      User.currentAssignmentId = some none := by
  decide

/-- C3 amended: the two writes are sequential, request first. If the
request write fails, neither the request collection nor the actor's
assignment is mutated (only the earlier role promotion may have been
persisted); if the request write succeeds and the actor write fails, the
operation fails but the request remains mutated while the actor's
assignment does not. -/
theorem take_atomicity_amended :
    (∀ (s : St) (env rid uid : Nat) (f2 : Bool) (req : Request) (u : User),
      findReq s rid = some req → req.status = Status.approved →
      findUser s uid = some u → u.currentAssignmentId = none →
      (handleTakeRequest s (some env) env rid uid true f2).1 = TakeResult.storeFailure ∧
      (handleTakeRequest s (some env) env rid uid true f2).2.requests = s.requests ∧
      (findUser (handleTakeRequest s (some env) env rid uid true f2).2 uid).map
        User.currentAssignmentId = some none) ∧
    (∀ (s : St) (env rid uid : Nat) (req : Request) (u : User),
      findReq s rid = some req → req.status = Status.approved →
      findUser s uid = some u → u.currentAssignmentId = none →
      (handleTakeRequest s (some env) env rid uid false true).1 = TakeResult.storeFailure ∧
      findReq (handleTakeRequest s (some env) env rid uid false true).2 rid =
        some { req with status := .assigned, studentId := some u.id } ∧
      (findUser (handleTakeRequest s (some env) env rid uid false true).2 uid).map
        User.currentAssignmentId = some none) := by
  constructor
  · intro s env rid uid f2 req u hreq hst hu hfree
    rw [take_reqfail_shape s env rid uid f2 req u hreq hst hu hfree]
    have hfind2 : findUser (if u.role == Role.user then putUser s { u with role := .student }
        else s) uid = some (if u.role = Role.user then { u with role := Role.student } else u) := by
      by_cases hr : u.role = Role.user
      · simp only [hr, if_pos, beq_self_eq_true]
        exact findUser_putUser_self_of s u _ uid hu rfl
      · simp [hr, hu]
    refine ⟨rfl, ?_, ?_⟩
    · by_cases hr : u.role = Role.user <;> simp [hr, putUser]
    · rw [hfind2]
      by_cases hr : u.role = Role.user <;> simp [hr, hfree]
  · intro s env rid uid req u hreq hst hu hfree
    rw [take_userfail_shape s env rid uid req u hreq hst hu hfree]
    have hfind2 : findUser (if u.role == Role.user then putUser s { u with role := .student }
        else s) uid = some (if u.role = Role.user then { u with role := Role.student } else u) := by
      by_cases hr : u.role = Role.user
      · simp only [hr, if_pos, beq_self_eq_true]
        exact findUser_putUser_self_of s u _ uid hu rfl
      · simp [hr, hu]
    have hfindr : findReq (if u.role == Role.user then putUser s { u with role := .student }
        else s) rid = some req := by
      by_cases hr : u.role = Role.user <;> simp [hr, findReq_putUser, hreq]
    refine ⟨rfl, ?_, ?_⟩
    · exact findReq_putReq_self_of _ req _ rid hfindr rfl
    · rw [show findUser (putReq (if u.role == Role.user then
          putUser s { u with role := .student } else s)
          { req with status := .assigned, studentId := some u.id }) uid =
        findUser (if u.role == Role.user then
          putUser s { u with role := .student } else s) uid from rfl]
      rw [hfind2]
      by_cases hr : u.role = Role.user <;> simp [hr, hfree]

/-- C3 witness: both failure modes at a concrete state. -/
theorem take_atomicity_amended_witness :
    (handleTakeRequest c3ex (some 100) 100 1 7 true false).2.requests = c3ex.requests ∧
    findReq (handleTakeRequest c3ex (some 100) 100 1 7 false true).2 1 =
      some { id := 1, userId := 5, categoryId := 3, text := "q", status := .assigned,
             studentId := some 7 } := by
  constructor
  · exact (take_atomicity_amended.1 c3ex 100 1 7 false
      { id := 1, userId := 5, categoryId := 3, text := "q", status := .approved }
      { id := 7 }
      (by decide) (by decide) (by decide) (by decide)).2.1
  · have := (take_atomicity_amended.2 c3ex 100 1 7
      { id := 1, userId := 5, categoryId := 3, text := "q", status := .approved }
      { id := 7 }
      (by decide) (by decide) (by decide) (by decide)).2.1
    simpa using this

/-! ## C2: double-take protection -/

theorem canTakeRequests_eq (c : Option Nat) (e : Nat) (h : canTakeRequests c e = true) :
    c = some e := by
  unfold canTakeRequests isInStudentChat at h
  cases c with
  | none => simp at h
  | some x =>
    simp at h
    rw [h]

theorem getOrCreateUser_fresh (s : St) (uid : Nat) (h : findUser s uid = none) :
    getOrCreateUser s uid = ({ id := uid }, { s with users := s.users ++ [{ id := uid }] }) := by
  unfold getOrCreateUser
  rw [h]

theorem findReq_eq_of_requests (a b : St) (h : a.requests = b.requests) (rid : Nat) :
    findReq a rid = findReq b rid := by
  unfold findReq
  rw [h]

theorem take_fresh_reduce (s : St) (e rid uid : Nat) (f1 f2 : Bool) (req : Request)
    (hreq : findReq s rid = some req) (hst : req.status = Status.approved)
    (hu : findUser s uid = none) :
    handleTakeRequest s (some e) e rid uid f1 f2 =
      handleTakeRequest { s with users := s.users ++ [{ id := uid }] } (some e) e rid uid f1 f2 := by
  have h2 : findReq { s with users := s.users ++ [{ id := uid }] } rid = some req := hreq
  unfold handleTakeRequest
  simp [canTakeRequests, isInStudentChat, hreq, h2, hst, getOrCreateUser_fresh s uid hu,
    getOrCreateUser_found _ uid _ (findUser_append_fresh s uid hu)]

theorem take_requests_cases (s : St) (c : Option Nat) (e rid uid : Nat) (f1 f2 : Bool) :
    ((handleTakeRequest s c e rid uid f1 f2).2.requests = s.requests ∧
      (handleTakeRequest s c e rid uid f1 f2).1 ≠ TakeResult.ok) ∨
    (∃ req sid, findReq s rid = some req ∧ req.status = Status.approved ∧
      (handleTakeRequest s c e rid uid f1 f2).2.requests =
        s.requests.map (fun x => if x.id == req.id then
          { req with status := .assigned, studentId := sid } else x)) := by
  by_cases hcan : canTakeRequests c e = true
  · obtain rfl := canTakeRequests_eq c e hcan
    cases hq : findReq s rid with
    | none =>
      left
      unfold handleTakeRequest
      simp [hcan, hq]
    | some req =>
      by_cases hqs : req.status = Status.approved
      · -- the stored-user core, applied to s itself or to s with the
        -- fresh registration appended
        have main : ∀ (t : St) (u : User), t.requests = s.requests →
            findUser t uid = some u →
            ((handleTakeRequest t (some e) e rid uid f1 f2).2.requests = s.requests ∧
              (handleTakeRequest t (some e) e rid uid f1 f2).1 ≠ TakeResult.ok) ∨
            (∃ sid, (handleTakeRequest t (some e) e rid uid f1 f2).2.requests =
                s.requests.map (fun x => if x.id == req.id then
                  { req with status := .assigned, studentId := sid } else x)) := by
          intro t u hteq hu
          have hq2 : findReq t rid = some req := by
            rw [findReq_eq_of_requests t s hteq rid]
            exact hq
          cases hass : u.currentAssignmentId with
          | some c2 =>
            left
            rw [take_conflict_shape t e rid uid f1 f2 req u c2 hq2 hqs hu hass]
            constructor
            · by_cases hr : u.role = Role.user <;> simp [hr, putUser, hteq]
            · simp
          | none =>
            cases f1 with
            | true =>
              left
              rw [take_reqfail_shape t e rid uid f2 req u hq2 hqs hu hass]
              constructor
              · by_cases hr : u.role = Role.user <;> simp [hr, putUser, hteq]
              · simp
            | false =>
              cases f2 with
              | true =>
                right
                refine ⟨some u.id, ?_⟩
                rw [take_userfail_shape t e rid uid req u hq2 hqs hu hass]
                show ((putReq _ _).requests) = _
                unfold putReq
                by_cases hr : u.role = Role.user <;> simp [hr, putUser, hteq]
              | false =>
                right
                refine ⟨some u.id, ?_⟩
                rw [take_success_shape t e rid uid req u hq2 hqs hu hass]
                show ((setSSession (putUser (putReq _ _) _) _ _).requests) = _
                unfold setSSession putUser putReq
                by_cases hr : u.role = Role.user <;> simp [hr, hteq]
        have step : ∀ (t : St), t.requests = s.requests →
            handleTakeRequest s (some e) e rid uid f1 f2 =
              handleTakeRequest t (some e) e rid uid f1 f2 →
            (∀ u : User, findUser t uid = some u →
            (((handleTakeRequest s (some e) e rid uid f1 f2).2.requests = s.requests ∧
              (handleTakeRequest s (some e) e rid uid f1 f2).1 ≠ TakeResult.ok) ∨
            (∃ req2 sid, some req = some req2 ∧ req2.status = Status.approved ∧
              (handleTakeRequest s (some e) e rid uid f1 f2).2.requests =
                s.requests.map (fun x => if x.id == req2.id then
                  { req2 with status := .assigned, studentId := sid } else x)))) := by
          intro t hteq heq u hu
          rcases main t u hteq hu with ⟨h1, h2⟩ | ⟨sid, h3⟩
          · left
            rw [heq]
            exact ⟨h1, h2⟩
          · right
            refine ⟨req, sid, rfl, hqs, ?_⟩
            rw [heq]
            exact h3
        cases hu : findUser s uid with
        | some u => exact step s rfl rfl u hu
        | none =>
          exact step { s with users := s.users ++ [{ id := uid }] } rfl
            (take_fresh_reduce s e rid uid f1 f2 req hq hqs hu) { id := uid }
            (findUser_append_fresh s uid hu)
      · left
        rw [take_badstatus_shape s (some e) e rid uid f1 f2 req hcan hq hqs]
        simp
  · left
    have hcan2 : canTakeRequests c e = false := by
      cases h2 : canTakeRequests c e
      · rfl
      · exact absurd h2 hcan
    unfold handleTakeRequest
    simp [hcan2]

theorem take_preserves_assigned (s : St) (c : Option Nat) (e rid2 uid : Nat) (f1 f2 : Bool)
    (rid : Nat) (r : Request) (h : findReq s rid = some r) (hst : r.status = Status.assigned) :
    ∃ r2, findReq (handleTakeRequest s c e rid2 uid f1 f2).2 rid = some r2 ∧
      r2.status = Status.assigned := by
  rcases take_requests_cases s c e rid2 uid f1 f2 with ⟨heq, -⟩ | ⟨req, sid, hq, hqs, heq⟩
  · refine ⟨r, ?_, hst⟩
    rw [findReq_eq_of_requests _ s heq rid]
    exact h
  · have hne : rid ≠ req.id := by
      intro habs
      rw [habs, findReq_id s rid2 req hq] at h
      rw [h] at hq
      injection hq with hq2
      rw [← hq2] at hqs
      rw [hst] at hqs
      exact Status.noConfusion hqs
    refine ⟨r, ?_, hst⟩
    show (handleTakeRequest s c e rid2 uid f1 f2).2.requests.find? (fun x => x.id == rid) = some r
    rw [heq]
    have h5 := find?_map_update_ne (fun x : Request => x.id) s.requests
      { req with status := .assigned, studentId := sid } rid hne
    rw [h5]
    exact h

theorem take_assigned_not_ok (s : St) (c : Option Nat) (e rid uid : Nat) (f1 f2 : Bool)
    (r : Request) (h : findReq s rid = some r) (hst : r.status = Status.assigned) :
    (handleTakeRequest s c e rid uid f1 f2).1 ≠ TakeResult.ok := by
  by_cases hcan : canTakeRequests c e = true
  · have hb : r.status ≠ Status.approved := by
      rw [hst]
      exact fun habs => Status.noConfusion habs
    rw [take_badstatus_shape s c e rid uid f1 f2 r hcan h hb]
    simp
  · have hcan2 : canTakeRequests c e = false := by
      cases h2 : canTakeRequests c e
      · rfl
      · exact absurd h2 hcan
    unfold handleTakeRequest
    simp [hcan2]

theorem take_ok_assigned (s : St) (c : Option Nat) (e rid uid : Nat) (f1 f2 : Bool)
    (h : (handleTakeRequest s c e rid uid f1 f2).1 = TakeResult.ok) :
    ∃ r, findReq (handleTakeRequest s c e rid uid f1 f2).2 rid = some r ∧
      r.status = Status.assigned := by
  rcases take_requests_cases s c e rid uid f1 f2 with ⟨-, hnot⟩ | ⟨req, sid, hq, hqs, heq⟩
  · exact absurd h hnot
  · have hid := findReq_id s rid req hq
    subst hid
    refine ⟨{ req with status := .assigned, studentId := sid }, ?_, rfl⟩
    show (handleTakeRequest s c e req.id uid f1 f2).2.requests.find?
      (fun x => x.id == req.id) = some { req with status := .assigned, studentId := sid }
    rw [heq]
    have h6 := find?_map_update_self (fun x : Request => x.id) s.requests
      { req with status := .assigned, studentId := sid }
    simp only [show ({ req with status := .assigned, studentId := sid } : Request).id = req.id
      from rfl] at h6
    rw [h6, show s.requests.find? (fun x => x.id == req.id) = some req from hq]
    rfl

theorem runTakes_cons (s : St) (rid : Nat) (a : TakeArgs) (t : List TakeArgs) :
    runTakes s rid (a :: t) =
      runTakes (handleTakeRequest s a.chatId a.studentChatId rid a.uid
        a.reqSaveFails a.userSaveFails).2 rid t := by
  simp [runTakes]

theorem runTakes_preserves_assigned (calls : List TakeArgs) (rid : Nat) :
    ∀ (s : St) (r : Request), findReq s rid = some r → r.status = Status.assigned →
    ∃ r2, findReq (runTakes s rid calls) rid = some r2 ∧ r2.status = Status.assigned := by
  induction calls with
  | nil =>
    intro s r h hst
    exact ⟨r, h, hst⟩
  | cons a t ih =>
    intro s r h hst
    rw [runTakes_cons]
    obtain ⟨r2, h2, hst2⟩ := take_preserves_assigned s a.chatId a.studentChatId rid a.uid
      a.reqSaveFails a.userSaveFails rid r h hst
    exact ih _ r2 h2 hst2

/-- C2: the take guards. A take on a request whose loaded status is not
`approved` fails with AlreadyHandled, mutating nothing; a take on an
approved request by an actor with a non-null `currentAssignmentId` fails
with AssignmentConflict, mutating neither the request collection nor the
actor's assignment; and once a take on a request has succeeded, every
later take on the same request — by anyone, with any store-failure
pattern, after any number of interleaved take attempts — fails. -/
theorem take_request_guards :
    (∀ (s : St) (c : Option Nat) (e rid uid : Nat) (f1 f2 : Bool) (req : Request),
      canTakeRequests c e = true → findReq s rid = some req →
      req.status ≠ Status.approved →
      handleTakeRequest s c e rid uid f1 f2 = (TakeResult.alreadyHandled, s)) ∧
    (∀ (s : St) (e rid uid : Nat) (f1 f2 : Bool) (req : Request) (u : User) (c2 : Nat),
      findReq s rid = some req → req.status = Status.approved →
      findUser s uid = some u → u.currentAssignmentId = some c2 →
      (handleTakeRequest s (some e) e rid uid f1 f2).1 = TakeResult.assignmentConflict ∧
      (handleTakeRequest s (some e) e rid uid f1 f2).2.requests = s.requests ∧
      (findUser (handleTakeRequest s (some e) e rid uid f1 f2).2 uid).map
        User.currentAssignmentId = some (some c2)) ∧
    (∀ (s s1 : St) (c : Option Nat) (e rid uid : Nat) (f1 f2 : Bool),
      handleTakeRequest s c e rid uid f1 f2 = (TakeResult.ok, s1) →
      ∀ (calls : List TakeArgs) (a : TakeArgs),
        (handleTakeRequest (runTakes s1 rid calls) a.chatId a.studentChatId rid a.uid
          a.reqSaveFails a.userSaveFails).1 ≠ TakeResult.ok) := by
  refine ⟨?_, ?_, ?_⟩
  · intro s c e rid uid f1 f2 req hcan hreq hst
    exact take_badstatus_shape s c e rid uid f1 f2 req hcan hreq hst
  · intro s e rid uid f1 f2 req u c2 hreq hst hu hbusy
    rw [take_conflict_shape s e rid uid f1 f2 req u c2 hreq hst hu hbusy]
    have hfind2 : findUser (if u.role == Role.user then putUser s { u with role := .student }
        else s) uid = some (if u.role = Role.user then { u with role := Role.student } else u) := by
      by_cases hr : u.role = Role.user
      · simp only [hr, if_pos, beq_self_eq_true]
        exact findUser_putUser_self_of s u _ uid hu rfl
      · simp [hr, hu]
    refine ⟨rfl, ?_, ?_⟩
    · by_cases hr : u.role = Role.user <;> simp [hr, putUser]
    · rw [hfind2]
      by_cases hr : u.role = Role.user <;> simp [hr, hbusy]
  · intro s s1 c e rid uid f1 f2 h calls a
    have h1 : (handleTakeRequest s c e rid uid f1 f2).1 = TakeResult.ok := by
      rw [h]
    have h2 : (handleTakeRequest s c e rid uid f1 f2).2 = s1 := by
      rw [h]
    obtain ⟨r, hr, hrst⟩ := take_ok_assigned s c e rid uid f1 f2 h1
    rw [h2] at hr
    obtain ⟨r2, hr2, hrst2⟩ := runTakes_preserves_assigned calls rid s1 r hr hrst
    exact take_assigned_not_ok _ a.chatId a.studentChatId rid a.uid
      a.reqSaveFails a.userSaveFails r2 hr2 hrst2

/-- C2 witness: a pending request is refused as AlreadyHandled; a busy
actor is refused as AssignmentConflict; after user 7 takes request 1,
another take of request 1 is not ok. -/
theorem take_request_guards_witness :
    handleTakeRequest c2ex (some 100) 100 2 7 false false = (TakeResult.alreadyHandled, c2ex) ∧
    (handleTakeRequest c2ex (some 100) 100 1 8 false false).1 = TakeResult.assignmentConflict ∧
    (handleTakeRequest
      (runTakes (handleTakeRequest c2ex (some 100) 100 1 7 false false).2 1 [])
      (some 100) 100 1 9 false false).1 ≠ TakeResult.ok := by
  refine ⟨?_, ?_, ?_⟩
  · exact take_request_guards.1 c2ex (some 100) 100 2 7 false false
      { id := 2, userId := 5, categoryId := 3, text := "w", status := .pending }
      (by decide) (by decide) (by decide)
  · exact (take_request_guards.2.1 c2ex 100 1 8 false false
      { id := 1, userId := 5, categoryId := 3, text := "q", status := .approved }
      { id := 8, role := .student, currentAssignmentId := some 1 } 1
      (by decide) (by decide) (by decide) (by decide)).1
  · exact take_request_guards.2.2 c2ex
      (handleTakeRequest c2ex (some 100) 100 1 7 false false).2 (some 100) 100 1 7 false false
      (by decide) [] ⟨some 100, 100, 9, false, false⟩

/-! ## CoreInv helper lemmas -/

theorem coreInv_append_fresh (s : St) (uid : Nat) (h : CoreInv s) (hu : findUser s uid = none) :
    CoreInv { s with users := s.users ++ [{ id := uid }] } := by
  obtain ⟨h1, h2, h3, h4, h5⟩ := h
  refine ⟨h1, ?_, ?_, ?_, ?_⟩
  · unfold UniqueUserIds at h2 ⊢
    rw [List.pairwise_append]
    refine ⟨h2, by simp, ?_⟩
    intro a ha b hb
    have hb2 : b = { id := uid } := by simpa using hb
    rw [hb2]
    exact findUser_eq_none_forall s uid hu a ha
  · intro u hmem
    rcases List.mem_append.mp hmem with hl | hr
    · rcases h3 u hl with h0 | ⟨r, hrm, hra, hrs, hract⟩
      · exact Or.inl h0
      · exact Or.inr ⟨r, hrm, hra, hrs, hract⟩
    · have : u = { id := uid } := by simpa using hr
      rw [this]
      exact Or.inl rfl
  · intro r hrm hract
    obtain ⟨w, hwm, hws, hwa⟩ := h4 r hrm hract
    exact ⟨w, List.mem_append.mpr (Or.inl hwm), hws, hwa⟩
  · intro p hp
    obtain ⟨w, hwm, hwi, hwa⟩ := h5 p hp
    exact ⟨w, List.mem_append.mpr (Or.inl hwm), hwi, hwa⟩

theorem putUser_self_eq (s : St) (uid : Nat) (u : User) (h2 : UniqueUserIds s)
    (hu : findUser s uid = some u) : putUser s u = s := by
  unfold putUser
  have hmap : s.users.map (fun x => if x.id == u.id then u else x) = s.users.map id := by
    apply List.map_congr_left
    intro x hx
    by_cases hxid : x.id = u.id
    · have hxu : x = u := uniqueUserIds_eq s h2 x u hx (findUser_mem s uid u hu) hxid
      simp [hxid, hxu]
    · simp [hxid]
  rw [hmap, List.map_id]

theorem mem_putUser_update (s : St) (v x : User) (hx : x ∈ s.users) :
    (if x.id == v.id then v else x) ∈ (putUser s v).users :=
  List.mem_map_of_mem (fun y => if y.id == v.id then v else y) hx

theorem mem_putUser_self (s : St) (v x : User) (hx : x ∈ s.users) (hxid : x.id = v.id) :
    v ∈ (putUser s v).users := by
  have h := mem_putUser_update s v x hx
  rw [if_pos (by simp [hxid])] at h
  exact h

theorem mem_putUser_other (s : St) (v x : User) (hx : x ∈ s.users) (hxid : x.id ≠ v.id) :
    x ∈ (putUser s v).users := by
  have h := mem_putUser_update s v x hx
  rw [if_neg (by simp [hxid])] at h
  exact h

theorem mem_putUser_elim (s : St) (v x' : User) (hx' : x' ∈ (putUser s v).users) :
    ∃ x ∈ s.users, x' = if x.id == v.id then v else x := by
  have hx2 : x' ∈ s.users.map (fun x => if x.id == v.id then v else x) := hx'
  obtain ⟨x, hx, hxeq⟩ := List.mem_map.mp hx2
  exact ⟨x, hx, hxeq.symm⟩

theorem mem_putReq_update (s : St) (v x : Request) (hx : x ∈ s.requests) :
    (if x.id == v.id then v else x) ∈ (putReq s v).requests :=
  List.mem_map_of_mem (fun y => if y.id == v.id then v else y) hx

theorem mem_putReq_self (s : St) (v x : Request) (hx : x ∈ s.requests) (hxid : x.id = v.id) :
    v ∈ (putReq s v).requests := by
  have h := mem_putReq_update s v x hx
  rw [if_pos (by simp [hxid])] at h
  exact h

theorem mem_putReq_other (s : St) (v x : Request) (hx : x ∈ s.requests) (hxid : x.id ≠ v.id) :
    x ∈ (putReq s v).requests := by
  have h := mem_putReq_update s v x hx
  rw [if_neg (by simp [hxid])] at h
  exact h

theorem mem_putReq_elim (s : St) (v x' : Request) (hx' : x' ∈ (putReq s v).requests) :
    ∃ x ∈ s.requests, x' = if x.id == v.id then v else x := by
  have hx2 : x' ∈ s.requests.map (fun x => if x.id == v.id then v else x) := hx'
  obtain ⟨x, hx, hxeq⟩ := List.mem_map.mp hx2
  exact ⟨x, hx, hxeq.symm⟩

theorem coreInv_putUser_same (s : St) (uid : Nat) (u v : User) (h : CoreInv s)
    (hu : findUser s uid = some u) (hid : v.id = u.id)
    (hass : v.currentAssignmentId = u.currentAssignmentId) :
    CoreInv (putUser s v) := by
  obtain ⟨h1, h2, h3, h4, h5⟩ := h
  have humem := findUser_mem s uid u hu
  refine ⟨h1, uniqueUserIds_put s v h2, ?_, ?_, ?_⟩
  · intro x' hx'
    obtain ⟨x, hx, hxeq⟩ := mem_putUser_elim s v x' hx'
    by_cases hxid : x.id = v.id
    · have hxu : x = u := uniqueUserIds_eq s h2 x u hx humem (by rw [hxid, hid])
      have hx'v : x' = v := by rw [hxeq, if_pos (by simp [hxid])]
      rcases h3 u humem with h0 | ⟨r, hrm, hra, hrs, hract⟩
      · left
        rw [hx'v, hass, h0]
      · right
        refine ⟨r, hrm, ?_, ?_, hract⟩
        · rw [hx'v, hass, hra]
        · rw [hrs, hx'v, hid]
    · have hx'x : x' = x := by rw [hxeq, if_neg (by simp [hxid])]
      rw [hx'x]
      rcases h3 x hx with h0 | ⟨r, hrm, hra, hrs, hract⟩
      · exact Or.inl h0
      · exact Or.inr ⟨r, hrm, hra, hrs, hract⟩
  · intro r hrm hract
    obtain ⟨w, hwm, hws, hwa⟩ := h4 r hrm hract
    by_cases hwid : w.id = v.id
    · have hwu : w = u := uniqueUserIds_eq s h2 w u hwm humem (by rw [hwid, hid])
      refine ⟨v, mem_putUser_self s v w hwm hwid, ?_, ?_⟩
      · rw [hws, hwid]
      · rw [hass, ← hwu, hwa]
    · exact ⟨w, mem_putUser_other s v w hwm hwid, hws, hwa⟩
  · intro p hp
    obtain ⟨w, hwm, hwi, hwa⟩ := h5 p hp
    by_cases hwid : w.id = v.id
    · have hwu : w = u := uniqueUserIds_eq s h2 w u hwm humem (by rw [hwid, hid])
      refine ⟨v, mem_putUser_self s v w hwm hwid, ?_, ?_⟩
      · rw [hid, ← hwu, hwi]
      · rw [hass, ← hwu, hwa]
    · exact ⟨w, mem_putUser_other s v w hwm hwid, hwi, hwa⟩

theorem coreInv_assign (t : St) (req : Request) (u1 : User) (rid uid : Nat)
    (h : CoreInv t)
    (hreq : findReq t rid = some req) (hst : req.status = Status.approved)
    (hu : findUser t uid = some u1) (hfree : u1.currentAssignmentId = none) :
    CoreInv (setSSession
      (putUser (putReq t { req with status := .assigned, studentId := some u1.id })
        { u1 with currentAssignmentId := some rid })
      uid { state := .writing_answer, requestId := rid }) := by
  obtain ⟨h1, h2, h3, h4, h5⟩ := h
  have hqid := findReq_id t rid req hreq
  have hqmem := findReq_mem t rid req hreq
  have huid := findUser_id t uid u1 hu
  have humem := findUser_mem t uid u1 hu
  refine ⟨?_, ?_, ?_, ?_, ?_⟩
  · exact uniqueReqIds_put t _ h1
  · exact uniqueUserIds_put (putReq t _) _ h2
  · intro x' hx'
    obtain ⟨x, hx, hxeq⟩ := mem_putUser_elim
      (putReq t { req with status := .assigned, studentId := some u1.id })
      { u1 with currentAssignmentId := some rid } x' hx'
    have hx0 : x ∈ t.users := hx
    by_cases hxid : x.id = u1.id
    · have hx'v : x' = { u1 with currentAssignmentId := some rid } := by
        rw [hxeq, if_pos (by simp [hxid])]
      right
      refine ⟨{ req with status := .assigned, studentId := some u1.id },
        mem_putReq_self t _ req hqmem rfl, ?_, ?_, Or.inl rfl⟩
      · rw [hx'v]
        show some rid = some req.id
        rw [hqid]
      · rw [hx'v]
    · have hx'x : x' = x := by rw [hxeq, if_neg (by simp [hxid])]
      rw [hx'x]
      rcases h3 x hx0 with h0 | ⟨r, hrm, hra, hrs, hract⟩
      · exact Or.inl h0
      · have hrne : r.id ≠ req.id := by
          intro habs
          have hrq : r = req := uniqueReqIds_eq t h1 r req hrm hqmem habs
          rw [hrq, hst] at hract
          rcases hract with h9 | h9 <;> exact Status.noConfusion h9
        exact Or.inr ⟨r, mem_putReq_other t _ r hrm hrne, hra, hrs, hract⟩
  · intro y' hy' hact
    obtain ⟨y, hy, hyeq⟩ := mem_putReq_elim t
      { req with status := .assigned, studentId := some u1.id } y' hy'
    by_cases hyid : y.id = req.id
    · have hy'v : y' = { req with status := .assigned, studentId := some u1.id } := by
        rw [hyeq, if_pos (by simp [hyid])]
      refine ⟨{ u1 with currentAssignmentId := some rid },
        mem_putUser_self (putReq t _) _ u1 humem rfl, ?_, ?_⟩
      · rw [hy'v]
      · rw [hy'v]
        show some rid = some req.id
        rw [hqid]
    · have hy'y : y' = y := by rw [hyeq, if_neg (by simp [hyid])]
      rw [hy'y] at hact ⊢
      obtain ⟨w, hwm, hws, hwa⟩ := h4 y hy hact
      have hwne : w.id ≠ u1.id := by
        intro habs
        have hwu : w = u1 := uniqueUserIds_eq t h2 w u1 hwm humem habs
        rw [hwu, hfree] at hwa
        exact Option.noConfusion hwa
      exact ⟨w, mem_putUser_other (putReq t _) _ w hwm hwne, hws, hwa⟩
  · intro p hp
    have hp2 : p ∈ ((uid, ({ state := .writing_answer, requestId := rid } : SSession)) ::
        (putUser (putReq t { req with status := .assigned, studentId := some u1.id })
          { u1 with currentAssignmentId := some rid }).studentStates.filter
          (fun q => q.1 != uid)) := hp
    rcases List.mem_cons.mp hp2 with hpe | hpf
    · refine ⟨{ u1 with currentAssignmentId := some rid },
        mem_putUser_self (putReq t _) _ u1 humem rfl, ?_, ?_⟩
      · rw [hpe]
        exact huid
      · rw [hpe]
    · have hpmem : p ∈ t.studentStates := (List.mem_filter.mp hpf).1
      have hpne : p.1 ≠ uid := by
        have := (List.mem_filter.mp hpf).2
        simpa using this
      obtain ⟨w, hwm, hwi, hwa⟩ := h5 p hpmem
      have hwne : w.id ≠ u1.id := by
        intro habs
        rw [habs, huid] at hwi
        exact hpne hwi.symm
      exact ⟨w, mem_putUser_other (putReq t _) _ w hwm hwne, hwi, hwa⟩

theorem coreInv_confirm_success (s : St) (uid : Nat) (sess : SSession) (req : Request)
    (h : CoreInv s) (hsess : getSSession s uid = some sess)
    (hfind : findReq s sess.requestId = some req) :
    CoreInv (delSSession
      (putReq s { req with status := Status.answered, answerText := sess.answerText })
      uid) := by
  obtain ⟨h1, h2, h3, h4, h5⟩ := h
  have hqid := findReq_id s sess.requestId req hfind
  have hqmem := findReq_mem s sess.requestId req hfind
  obtain ⟨u', hu'm, hu'id, hu'a⟩ := h5 (uid, sess) (getSSession_mem s uid sess hsess)
  rcases h3 u' hu'm with h0 | ⟨r0, hr0m, hr0a, hr0s, hr0act⟩
  · rw [h0] at hu'a
    exact Option.noConfusion hu'a
  have hr0id : r0.id = sess.requestId := by
    rw [hu'a] at hr0a
    injection hr0a with hx
    exact hx.symm
  have hr0req : r0 = req := findReq_eq_of_mem s h1 sess.requestId req r0 hfind hr0m hr0id
  refine ⟨uniqueReqIds_put s _ h1, h2, ?_, ?_, ?_⟩
  · intro x hx
    rcases h3 x hx with h0 | ⟨r, hrm, hra, hrs, hract⟩
    · exact Or.inl h0
    · by_cases hrid : r.id = req.id
      · have hrreq : r = req := uniqueReqIds_eq s h1 r req hrm hqmem hrid
        right
        refine ⟨{ req with status := .answered, answerText := sess.answerText },
          mem_putReq_self s _ req hqmem rfl, ?_, ?_, Or.inr rfl⟩
        · rw [hra, hrreq]
        · show req.studentId = some x.id
          rw [← hrreq]
          exact hrs
      · exact Or.inr ⟨r, mem_putReq_other s _ r hrm hrid, hra, hrs, hract⟩
  · intro y' hy' hact
    obtain ⟨y, hy, hyeq⟩ := mem_putReq_elim s
      { req with status := .answered, answerText := sess.answerText } y' hy'
    by_cases hyid : y.id = req.id
    · have hy'v : y' = { req with status := .answered, answerText := sess.answerText } := by
        rw [hyeq, if_pos (by simp [hyid])]
      refine ⟨u', hu'm, ?_, ?_⟩
      · rw [hy'v]
        show req.studentId = some u'.id
        rw [← hr0req]
        exact hr0s
      · rw [hy'v]
        show u'.currentAssignmentId = some req.id
        rw [hqid]
        exact hu'a
    · have hy'y : y' = y := by rw [hyeq, if_neg (by simp [hyid])]
      rw [hy'y] at hact ⊢
      obtain ⟨w, hwm, hws, hwa⟩ := h4 y hy hact
      exact ⟨w, hwm, hws, hwa⟩
  · intro p hp
    have hpf : p ∈ (putReq s
        { req with status := Status.answered, answerText := sess.answerText
        }).studentStates.filter (fun q => q.1 != uid) := hp
    have hpmem : p ∈ s.studentStates := (List.mem_filter.mp hpf).1
    obtain ⟨w, hwm, hwi, hwa⟩ := h5 p hpmem
    exact ⟨w, hwm, hwi, hwa⟩

theorem coreInv_reject_success (s : St) (uid cur : Nat) (u : User) (req : Request)
    (h : CoreInv s) (hu : findUser s uid = some u)
    (hass : u.currentAssignmentId = some cur) (hfind : findReq s cur = some req) :
    CoreInv (delSSession (putUser (putReq s { req with status := .approved, studentId := none })
      { u with currentAssignmentId := none }) uid) := by
  obtain ⟨h1, h2, h3, h4, h5⟩ := h
  have hqid := findReq_id s cur req hfind
  have hqmem := findReq_mem s cur req hfind
  have huid := findUser_id s uid u hu
  have humem := findUser_mem s uid u hu
  rcases h3 u humem with h0 | ⟨r0, hr0m, hr0a, hr0s, hr0act⟩
  · rw [h0] at hass
    exact Option.noConfusion hass
  have hr0id : r0.id = cur := by
    rw [hass] at hr0a
    injection hr0a with hx
    exact hx.symm
  have hr0req : r0 = req := findReq_eq_of_mem s h1 cur req r0 hfind hr0m hr0id
  have hqs : req.studentId = some u.id := by
    rw [← hr0req]
    exact hr0s
  refine ⟨uniqueReqIds_put s _ h1, uniqueUserIds_put (putReq s _) _ h2, ?_, ?_, ?_⟩
  · intro x' hx'
    obtain ⟨x, hx, hxeq⟩ := mem_putUser_elim
      (putReq s { req with status := .approved, studentId := none })
      { u with currentAssignmentId := none } x' hx'
    have hx0 : x ∈ s.users := hx
    by_cases hxid : x.id = u.id
    · have hx'v : x' = { u with currentAssignmentId := none } := by
        rw [hxeq, if_pos (by simp [hxid])]
      left
      rw [hx'v]
    · have hx'x : x' = x := by rw [hxeq, if_neg (by simp [hxid])]
      rw [hx'x]
      rcases h3 x hx0 with h0 | ⟨r, hrm, hra, hrs, hract⟩
      · exact Or.inl h0
      · have hrne : r.id ≠ req.id := by
          intro habs
          have hrq : r = req := uniqueReqIds_eq s h1 r req hrm hqmem habs
          rw [hrq, hqs] at hrs
          injection hrs with hx9
          exact hxid hx9.symm
        exact Or.inr ⟨r, mem_putReq_other s _ r hrm hrne, hra, hrs, hract⟩
  · intro y' hy' hact
    obtain ⟨y, hy, hyeq⟩ := mem_putReq_elim s
      { req with status := .approved, studentId := none } y' hy'
    by_cases hyid : y.id = req.id
    · have hy'v : y' = { req with status := .approved, studentId := none } := by
        rw [hyeq, if_pos (by simp [hyid])]
      rw [hy'v] at hact
      rcases hact with h9 | h9 <;> exact Status.noConfusion h9
    · have hy'y : y' = y := by rw [hyeq, if_neg (by simp [hyid])]
      rw [hy'y] at hact ⊢
      obtain ⟨w, hwm, hws, hwa⟩ := h4 y hy hact
      have hwne : w.id ≠ u.id := by
        intro habs
        have hwu : w = u := uniqueUserIds_eq s h2 w u hwm humem habs
        rw [hwu, hass] at hwa
        injection hwa with hx9
        exact hyid (by rw [← hx9, hqid])
      exact ⟨w, mem_putUser_other (putReq s _) _ w hwm hwne, hws, hwa⟩
  · intro p hp
    have hpf : p ∈ (putUser (putReq s { req with status := .approved, studentId := none })
        { u with currentAssignmentId := none }).studentStates.filter (fun q => q.1 != uid) := hp
    have hpmem : p ∈ s.studentStates := (List.mem_filter.mp hpf).1
    have hpne : p.1 ≠ uid := by
      have := (List.mem_filter.mp hpf).2
      simpa using this
    obtain ⟨w, hwm, hwi, hwa⟩ := h5 p hpmem
    have hwne : w.id ≠ u.id := by
      intro habs
      rw [habs, huid] at hwi
      exact hpne hwi.symm
    exact ⟨w, mem_putUser_other (putReq s _) _ w hwm hwne, hwi, hwa⟩

theorem confirm_success_shape (s : St) (uid : Nat) (u : User) (c2 : Nat) (sess : SSession)
    (req : Request) (hu : findUser s uid = some u)
    (hass : u.currentAssignmentId = some c2) (hsess : getSSession s uid = some sess)
    (hstate : sess.state = SState.confirming_answer)
    (hfind : findReq s sess.requestId = some req) :
    handleConfirmAnswer s uid =
      (ConfirmResult.ok, delSSession
        (putReq s { req with status := Status.answered, answerText := sess.answerText })
        uid) := by
  unfold handleConfirmAnswer
  simp [getOrCreateUser_found s uid u hu, hass, hsess, hstate, hfind]

theorem confirm_shape_cases (s : St) (uid : Nat) :
    ((handleConfirmAnswer s uid).2 = s) ∨
    ((handleConfirmAnswer s uid).2 = { s with users := s.users ++ [{ id := uid }] } ∧
      findUser s uid = none) ∨
    (∃ u c2 sess req, findUser s uid = some u ∧ u.currentAssignmentId = some c2 ∧
      getSSession s uid = some sess ∧ sess.state = SState.confirming_answer ∧
      findReq s sess.requestId = some req ∧
      handleConfirmAnswer s uid = (ConfirmResult.ok, delSSession
        (putReq s { req with status := Status.answered, answerText := sess.answerText })
        uid)) := by
  cases hu : findUser s uid with
  | none =>
    refine Or.inr (Or.inl ⟨?_, rfl⟩)
    unfold handleConfirmAnswer
    simp [getOrCreateUser_fresh s uid hu]
  | some u =>
    cases hass : u.currentAssignmentId with
    | none =>
      left
      unfold handleConfirmAnswer
      simp [getOrCreateUser_found s uid u hu, hass]
    | some c2 =>
      cases hsess : getSSession s uid with
      | none =>
        left
        unfold handleConfirmAnswer
        simp [getOrCreateUser_found s uid u hu, hass, hsess]
      | some sess =>
        by_cases hstate : sess.state = SState.confirming_answer
        · cases hfind : findReq s sess.requestId with
          | none =>
            left
            unfold handleConfirmAnswer
            simp [getOrCreateUser_found s uid u hu, hass, hsess, hstate, hfind]
          | some req =>
            exact Or.inr (Or.inr ⟨u, c2, sess, req, rfl, hass, rfl, hstate, hfind,
              confirm_success_shape s uid u c2 sess req hu hass hsess hstate hfind⟩)
        · left
          unfold handleConfirmAnswer
          simp [getOrCreateUser_found s uid u hu, hass, hsess, hstate]

theorem reject_shape_cases (s : St) (uid : Nat) (cb : Option Nat) :
    ((handleRejectAssignment s uid cb).2 = s) ∨
    ((handleRejectAssignment s uid cb).2 = { s with users := s.users ++ [{ id := uid }] } ∧
      findUser s uid = none) ∨
    (∃ u cur req, findUser s uid = some u ∧ u.currentAssignmentId = some cur ∧
      findReq s (cb.getD cur) = some req ∧
      handleRejectAssignment s uid cb = (RejectResult.ok (cb.getD cur), delSSession
        (putUser (putReq s { req with status := Status.approved, studentId := none })
          { u with currentAssignmentId := none }) uid)) := by
  cases hu : findUser s uid with
  | none =>
    refine Or.inr (Or.inl ⟨?_, rfl⟩)
    unfold handleRejectAssignment
    simp [getOrCreateUser_fresh s uid hu]
  | some u =>
    cases hass : u.currentAssignmentId with
    | none =>
      left
      unfold handleRejectAssignment
      simp [getOrCreateUser_found s uid u hu, hass]
    | some cur =>
      cases hfind : findReq s (cb.getD cur) with
      | none =>
        left
        unfold handleRejectAssignment
        simp [getOrCreateUser_found s uid u hu, hass, hfind]
      | some req =>
        exact Or.inr (Or.inr ⟨u, cur, req, rfl, hass, hfind,
          reject_success_shape s uid cb u cur req hu hass hfind⟩)

theorem coreInv_confirm (s : St) (uid : Nat) (h : CoreInv s) :
    CoreInv (handleConfirmAnswer s uid).2 := by
  rcases confirm_shape_cases s uid with he | ⟨he, hu⟩ |
    ⟨u, c2, sess, req, hu, hass, hsess, hstate, hfind, he⟩
  · rw [he]
    exact h
  · rw [he]
    exact coreInv_append_fresh s uid h hu
  · rw [he]
    exact coreInv_confirm_success s uid sess req h hsess hfind

theorem coreInv_reject (s : St) (uid : Nat) (h : CoreInv s) :
    CoreInv (handleRejectAssignment s uid none).2 := by
  rcases reject_shape_cases s uid none with he | ⟨he, hu⟩ |
    ⟨u, cur, req, hu, hass, hfind, he⟩
  · rw [he]
    exact h
  · rw [he]
    exact coreInv_append_fresh s uid h hu
  · rw [he]
    exact coreInv_reject_success s uid cur u req h hu hass hfind

theorem coreInv_take (s : St) (c : Option Nat) (e rid uid : Nat) (h : CoreInv s) :
    CoreInv (handleTakeRequest s c e rid uid false false).2 := by
  by_cases hcan : canTakeRequests c e = true
  · obtain rfl := canTakeRequests_eq c e hcan
    cases hq : findReq s rid with
    | none =>
      have hshape : handleTakeRequest s (some e) e rid uid false false =
          (TakeResult.notFound, s) := by
        unfold handleTakeRequest
        simp [hcan, hq]
      rw [hshape]
      exact h
    | some req =>
      by_cases hqs : req.status = Status.approved
      · have main : ∀ (t : St) (u : User), CoreInv t → findReq t rid = some req →
            findUser t uid = some u →
            CoreInv (handleTakeRequest t (some e) e rid uid false false).2 := by
          intro t u ht hreq hu
          cases hass : u.currentAssignmentId with
          | some c2 =>
            rw [take_conflict_shape t e rid uid false false req u c2 hreq hqs hu hass]
            by_cases hr : u.role = Role.user
            · have hcond : (u.role == Role.user) = true := by simp [hr]
              show CoreInv (if u.role == Role.user then
                putUser t { u with role := .student } else t)
              rw [if_pos hcond]
              exact coreInv_putUser_same t uid u { u with role := .student } ht hu rfl rfl
            · have hcond : ¬ ((u.role == Role.user) = true) := by simp [hr]
              show CoreInv (if u.role == Role.user then
                putUser t { u with role := .student } else t)
              rw [if_neg hcond]
              exact ht
          | none =>
            rw [take_success_shape t e rid uid req u hreq hqs hu hass]
            by_cases hr : u.role = Role.user
            · have hcond : (u.role == Role.user) = true := by simp [hr]
              simp only [if_pos hcond]
              exact coreInv_assign (putUser t { u with role := .student }) req
                { u with role := .student } rid uid
                (coreInv_putUser_same t uid u { u with role := .student } ht hu rfl rfl)
                (by rw [findReq_putUser]; exact hreq) hqs
                (findUser_putUser_self_of t u { u with role := .student } uid hu rfl)
                hass
            · have hcond : ¬ ((u.role == Role.user) = true) := by simp [hr]
              simp only [if_neg hcond]
              exact coreInv_assign t req u rid uid ht hreq hqs hu hass
        cases hu : findUser s uid with
        | some u => exact main s u h hq hu
        | none =>
          rw [take_fresh_reduce s e rid uid false false req hq hqs hu]
          exact main { s with users := s.users ++ [{ id := uid }] } { id := uid }
            (coreInv_append_fresh s uid h hu) hq (findUser_append_fresh s uid hu)
      · rw [take_badstatus_shape s (some e) e rid uid false false req hcan hq hqs]
        exact h
  · have hcan2 : canTakeRequests c e = false := by
      cases h2 : canTakeRequests c e
      · rfl
      · exact absurd h2 hcan
    have hshape : handleTakeRequest s c e rid uid false false =
        (TakeResult.notInStudentChat, s) := by
      unfold handleTakeRequest
      simp [hcan2]
    rw [hshape]
    exact h

theorem coreInv_count (s : St) (h : CoreInv s) :
    ∀ u ∈ s.users, (u.currentAssignmentId ≠ none ↔ activeCountOf s u.id = 1) := by
  obtain ⟨h1, h2, h3, h4, h5⟩ := h
  intro u hu
  have hall : ∀ x ∈ s.requests,
      (x.studentId == some u.id && decide (IsActive x.status)) = true →
      u.currentAssignmentId = some x.id := by
    intro x hx hPx
    simp only [Bool.and_eq_true, beq_iff_eq, decide_eq_true_eq] at hPx
    obtain ⟨hxsid, hxact⟩ := hPx
    obtain ⟨w, hwm, hwsid, hwass⟩ := h4 x hx hxact
    have h9 : (some w.id : Option Nat) = some u.id := by
      rw [← hwsid]
      exact hxsid
    have hwu : w = u := uniqueUserIds_eq s h2 w u hwm hu (Option.some.inj h9)
    rw [← hwu]
    exact hwass
  constructor
  · intro hne
    rcases h3 u hu with h0 | ⟨r0, hr0m, hr0a, hr0s, hr0act⟩
    · exact absurd h0 hne
    · have hPr0 : (r0.studentId == some u.id && decide (IsActive r0.status)) = true := by
        simp [hr0s, hr0act]
      have huniq : ∀ x ∈ s.requests,
          (x.studentId == some u.id && decide (IsActive x.status)) = true → x = r0 := by
        intro x hx hPx
        have hx2 := hall x hx hPx
        rw [hr0a] at hx2
        injection hx2 with hids
        exact uniqueReqIds_eq s h1 x r0 hx hr0m hids.symm
      unfold activeCountOf
      have hmemf : r0 ∈ s.requests.filter
          (fun r => r.studentId == some u.id && decide (IsActive r.status)) :=
        List.mem_filter.mpr ⟨hr0m, hPr0⟩
      cases hf : s.requests.filter
          (fun r => r.studentId == some u.id && decide (IsActive r.status)) with
      | nil =>
        rw [hf] at hmemf
        simp at hmemf
      | cons a t =>
        have hsub : ∀ x ∈ s.requests.filter
            (fun r => r.studentId == some u.id && decide (IsActive r.status)), x = r0 := by
          intro x hx
          exact huniq x (List.mem_filter.mp hx).1 (List.mem_filter.mp hx).2
        have ha : a = r0 := hsub a (by rw [hf]; simp)
        cases t with
        | nil => rfl
        | cons b t2 =>
          have hb : b = r0 := hsub b (by rw [hf]; simp)
          have hpw : (s.requests.filter
              (fun r => r.studentId == some u.id && decide (IsActive r.status))).Pairwise
              (fun x y : Request => x.id ≠ y.id) := h1.filter _
          rw [hf] at hpw
          have hab := (List.pairwise_cons.mp hpw).1 b (by simp)
          rw [ha, hb] at hab
          exact absurd rfl hab
  · intro hcount
    intro hnone
    have hzero : s.requests.filter
        (fun r => r.studentId == some u.id && decide (IsActive r.status)) = [] := by
      rw [List.filter_eq_nil_iff]
      intro x hx
      intro hPx
      have := hall x hx hPx
      rw [hnone] at this
      exact Option.noConfusion this
    unfold activeCountOf at hcount
    rw [hzero] at hcount
    simp at hcount

/-! ## C1: the assignment invariant -/

/-- C1 counterexample: the stated invariant (`status == assigned`) holds
before user 7 confirms the drafted answer, the confirmation succeeds,
and the invariant is false afterwards: the request is now `answered`
while `currentAssignmentId` is still set — confirm-answer does not
preserve the equivalence as stated. -/
theorem assignment_invariant_counterexample :
    InvAssigned c1ex ∧
    (handleConfirmAnswer c1ex 7).1 = ConfirmResult.ok ∧
    ¬ InvAssigned (handleConfirmAnswer c1ex 7).2 := by
  decide

/-- C1 amended: with `status ∈ {assigned, answered}` in place of
`status == assigned`, the equivalence (non-null `currentAssignmentId`
iff exactly one active request of that actor) follows from the core
invariant `CoreInv`, and `CoreInv` is preserved by takeRequest (with
succeeding writes), by confirm-answer, and by rejectAssignment on the
text-button path (the id rejected is the actor's own assignment). -/
theorem assignment_invariant_amended :
    (∀ s : St, CoreInv s → ∀ u ∈ s.users,
      (u.currentAssignmentId ≠ none ↔ activeCountOf s u.id = 1)) ∧
    (∀ (s : St) (c : Option Nat) (e rid uid : Nat), CoreInv s →
      CoreInv (handleTakeRequest s c e rid uid false false).2) ∧
    (∀ (s : St) (uid : Nat), CoreInv s → CoreInv (handleConfirmAnswer s uid).2) ∧
    (∀ (s : St) (uid : Nat), CoreInv s → CoreInv (handleRejectAssignment s uid none).2) :=
  ⟨coreInv_count,
   fun s c e rid uid h => coreInv_take s c e rid uid h,
   fun s uid h => coreInv_confirm s uid h,
   fun s uid h => coreInv_reject s uid h⟩

/-- C1 witness: the amended invariant instantiated at a concrete state
and a concrete take. -/
theorem assignment_invariant_amended_witness :
    (({ id := 7 } : User).currentAssignmentId ≠ none ↔ activeCountOf c1wex 7 = 1) ∧
    CoreInv (handleTakeRequest c1wex (some 100) 100 1 7 false false).2 :=
  ⟨assignment_invariant_amended.1 c1wex (by decide) { id := 7 } (by decide),
   assignment_invariant_amended.2.1 c1wex (some 100) 100 1 7 (by decide)⟩

/-! ## C6: the status transition edges -/

/-- C6 counterexample: a reachable trace — take, draft, confirm — leaves
request 1 `answered`; the fulfiller's reject (text-button path, still
available because `currentAssignmentId` survives the confirmation) then
moves it to `approved`, an edge outside the specified set. -/
theorem status_edges_counterexample :
    (findReq c6s3 1).map Request.status = some Status.answered ∧
    (handleRejectAssignment c6s3 7 none).1 = RejectResult.ok 1 ∧
    (findReq (handleRejectAssignment c6s3 7 none).2 1).map Request.status =
      some Status.approved ∧
    specEdge Status.answered Status.approved = false := by
  decide

/-- C6 amended: under the core invariant, takeRequest changes a stored
request's status only along approved→assigned; confirm-answer only along
assigned→answered; rejectAssignment (text path) only along
assigned→approved or the extra edge answered→approved that the code
performs when rejecting an already-answered assignment; and a take whose
loaded status is not approved is rejected without mutation. -/
theorem status_edges_amended :
    (∀ (s : St) (c : Option Nat) (e rid uid : Nat) (f1 f2 : Bool) (rid2 : Nat)
      (r r2 : Request),
      findReq s rid2 = some r →
      findReq (handleTakeRequest s c e rid uid f1 f2).2 rid2 = some r2 →
      r2.status ≠ r.status → specEdge r.status r2.status = true) ∧
    (∀ (s : St) (uid rid2 : Nat) (r r2 : Request), CoreInv s →
      findReq s rid2 = some r →
      findReq (handleConfirmAnswer s uid).2 rid2 = some r2 →
      r2.status ≠ r.status → specEdge r.status r2.status = true) ∧
    (∀ (s : St) (uid rid2 : Nat) (r r2 : Request), CoreInv s →
      findReq s rid2 = some r →
      findReq (handleRejectAssignment s uid none).2 rid2 = some r2 →
      r2.status ≠ r.status → extEdge r.status r2.status = true) ∧
    (∀ (s : St) (c : Option Nat) (e rid uid : Nat) (f1 f2 : Bool) (req : Request),
      canTakeRequests c e = true → findReq s rid = some req →
      req.status ≠ Status.approved →
      (handleTakeRequest s c e rid uid f1 f2).2 = s) := by
  refine ⟨?_, ?_, ?_, ?_⟩
  · intro s c e rid uid f1 f2 rid2 r r2 h1 h2 hne
    rcases take_requests_cases s c e rid uid f1 f2 with ⟨heq, -⟩ | ⟨req, sid, hq, hqs, heq⟩
    · rw [findReq_eq_of_requests _ s heq rid2, h1] at h2
      exact absurd (Option.some.inj h2) (fun hx => hne (by rw [hx]))
    · have h2' : findReq (putReq s { req with status := .assigned, studentId := sid })
          rid2 = some r2 := by
        show (putReq s { req with status := .assigned, studentId := sid }).requests.find?
          (fun x => x.id == rid2) = some r2
        rw [show (putReq s { req with status := .assigned, studentId := sid }).requests =
          s.requests.map (fun x => if x.id == req.id then
            { req with status := .assigned, studentId := sid } else x) from rfl]
        rw [← heq]
        exact h2
      by_cases hrid : rid2 = req.id
      · have hq2 : findReq s rid2 = some req := by
          rw [hrid, findReq_id s rid req hq]
          exact hq
        have hrreq : r = req := by
          rw [h1] at hq2
          exact Option.some.inj hq2
        have hr2 : r2 = { req with status := .assigned, studentId := sid } := by
          rw [findReq_putReq_self_of s req
            { req with status := .assigned, studentId := sid } rid2 hq2 rfl] at h2'
          exact (Option.some.inj h2').symm
        rw [hrreq, hr2, hqs]
        rfl
      · rw [findReq_putReq_ne s { req with status := .assigned, studentId := sid } rid2 hrid,
          h1] at h2'
        exact absurd (Option.some.inj h2') (fun hx => hne (by rw [hx]))
  · intro s uid rid2 r r2 hinv h1 h2 hne
    rcases confirm_shape_cases s uid with he | ⟨he, -⟩ |
      ⟨u, c2, sess, req, hu, hass, hsess, hstate, hfind, he⟩
    · rw [he, h1] at h2
      exact absurd (Option.some.inj h2) (fun hx => hne (by rw [hx]))
    · rw [he] at h2
      have h2' : findReq s rid2 = some r2 := h2
      rw [h1] at h2'
      exact absurd (Option.some.inj h2') (fun hx => hne (by rw [hx]))
    · obtain ⟨hw1, hw2, hw3, hw4, hw5⟩ := hinv
      have hqid := findReq_id s sess.requestId req hfind
      rw [he] at h2
      have h2' : findReq (putReq s
          { req with
            status := Status.answered
            answerText := sess.answerText }) rid2 = some r2 := h2
      by_cases hrid : rid2 = req.id
      · have hq2 : findReq s rid2 = some req := by
          rw [hrid, hqid]
          exact hfind
        have hrreq : r = req := by
          rw [h1] at hq2
          exact Option.some.inj hq2
        have hr2 : r2 = { req with
            status := Status.answered
            answerText := sess.answerText } := by
          rw [findReq_putReq_self_of s req
            { req with status := Status.answered, answerText := sess.answerText }
            rid2 hq2 rfl] at h2'
          exact (Option.some.inj h2').symm
        obtain ⟨u', hu'm, hu'id, hu'a⟩ := hw5 (uid, sess) (getSSession_mem s uid sess hsess)
        rcases hw3 u' hu'm with h0 | ⟨r0, hr0m, hr0a, hr0s, hr0act⟩
        · rw [h0] at hu'a
          exact Option.noConfusion hu'a
        have hr0id : r0.id = sess.requestId := by
          rw [hu'a] at hr0a
          exact (Option.some.inj hr0a).symm
        have hr0req : r0 = req := findReq_eq_of_mem s hw1 sess.requestId req r0 hfind hr0m hr0id
        rw [hr0req] at hr0act
        rcases hr0act with h9 | h9
        · rw [hrreq, hr2, h9]
          rfl
        · rw [hrreq, hr2] at hne
          rw [h9] at hne
          exact absurd rfl hne
      · rw [findReq_putReq_ne s
          { req with status := Status.answered, answerText := sess.answerText } rid2 hrid,
          h1] at h2'
        exact absurd (Option.some.inj h2') (fun hx => hne (by rw [hx]))
  · intro s uid rid2 r r2 hinv h1 h2 hne
    rcases reject_shape_cases s uid none with he | ⟨he, -⟩ |
      ⟨u, cur, req, hu, hass, hfind, he⟩
    · rw [he, h1] at h2
      exact absurd (Option.some.inj h2) (fun hx => hne (by rw [hx]))
    · rw [he] at h2
      have h2' : findReq s rid2 = some r2 := h2
      rw [h1] at h2'
      exact absurd (Option.some.inj h2') (fun hx => hne (by rw [hx]))
    · obtain ⟨hw1, hw2, hw3, hw4, hw5⟩ := hinv
      have hqid : req.id = cur := findReq_id s cur req hfind
      rw [he] at h2
      have h2' : findReq (putReq s
          { req with
            status := Status.approved
            studentId := none }) rid2 = some r2 := h2
      by_cases hrid : rid2 = req.id
      · have hq2 : findReq s rid2 = some req := by
          rw [hrid, hqid]
          exact hfind
        have hrreq : r = req := by
          rw [h1] at hq2
          exact Option.some.inj hq2
        have hr2 : r2 = { req with status := Status.approved, studentId := none } := by
          rw [findReq_putReq_self_of s req
            { req with status := Status.approved, studentId := none } rid2 hq2 rfl] at h2'
          exact (Option.some.inj h2').symm
        have humem := findUser_mem s uid u hu
        rcases hw3 u humem with h0 | ⟨r0, hr0m, hr0a, hr0s, hr0act⟩
        · rw [h0] at hass
          exact Option.noConfusion hass
        have hr0id : r0.id = cur := by
          rw [hass] at hr0a
          exact (Option.some.inj hr0a).symm
        have hr0req : r0 = req := findReq_eq_of_mem s hw1 cur req r0 hfind hr0m hr0id
        rw [hr0req] at hr0act
        rcases hr0act with h9 | h9
        · rw [hrreq, hr2, h9]
          rfl
        · rw [hrreq, hr2, h9]
          rfl
      · rw [findReq_putReq_ne s
          { req with status := Status.approved, studentId := none } rid2 hrid, h1] at h2'
        exact absurd (Option.some.inj h2') (fun hx => hne (by rw [hx]))
  · intro s c e rid uid f1 f2 req hcan hreq hst
    rw [take_badstatus_shape s c e rid uid f1 f2 req hcan hreq hst]

/-- C6 witness: the take edge approved→assigned at a concrete state. -/
theorem status_edges_amended_witness :
    specEdge Status.approved Status.assigned = true :=
  status_edges_amended.1 c6s0 (some 100) 100 1 7 false false 1
    { id := 1, userId := 5, categoryId := 3, text := "q", status := .approved }
    { id := 1, userId := 5, categoryId := 3, text := "q", status := .assigned,
      studentId := some 7 }
    (by decide) (by decide) (by decide)

/-- C10 witness: the characterization instantiated at a private-chat
event from the stored banned user. -/
theorem ban_check_amended_witness :
    banCheckMiddleware c10ex (some ChatType.privateChat) (some 5) false =
      BanOutcome.blocked :=
  (ban_check_amended c10ex (some ChatType.privateChat) (some 5) false).mpr
    ⟨Or.inr rfl, rfl, 5, rfl, { id := 5, isBanned := true }, by decide, rfl⟩
